import Mathlib

/-!
Shallow embedding of the SmartThings auth-broker Cloudflare Worker
(the `fetch` handler and its helpers in the worker source).

Modelling conventions:
* byte values are `Nat` with explicit `< 256` bounds where they matter;
* JS strings are Lean `String`s;
* ISO-8601 timestamp strings are represented by their epoch-millisecond
  value (`Int`); `Date.toISOString` / `new Date(s).getTime()` are treated
  as the platform bijection between the two representations;
* the KV namespace is represented as two key-indexed partial maps
  (`pair:` and `token:` prefixes keep the two namespaces disjoint in the
  source, so the two maps cannot collide);
* WebCrypto AES-GCM together with `TextEncoder`/`TextDecoder` is an
  external platform primitive; it is modelled as an idealised
  authenticated cipher (`AEAD` below).  Everything the repository itself
  does around it (nonce packing, base64url, splitting) is embedded
  concretely.
-/

/-- JS truthiness of a nullable string (`null`, `undefined` and `""` are falsy). -/
def truthy : Option String → Bool
  | none => false
  | some s => s != ""

/-! ### base64 (`btoa` / `atob`) and the worker's base64url packing -/

/-- The standard base64 alphabet used by `btoa`. -/
def b64chars : List Char :=
  "ABCDEFGHIJKLMNOPQRSTUVWXYZabcdefghijklmnopqrstuvwxyz0123456789+/".data

/-- Character for a 6-bit group. -/
def sextetChar (n : Nat) : Char := b64chars.getD n 'A'

/-- Index of a base64 character in the alphabet (`none` for non-alphabet chars). -/
def charSextet (c : Char) : Option Nat := b64chars.findIdx? (fun x => x = c)

/-- The body of `btoa`: 3 input bytes become 4 alphabet characters, with the
    final partial group producing 2 or 3 characters (padding handled separately). -/
def b64core : List Nat → List Char
  | [] => []
  | [b] => [sextetChar (b / 4), sextetChar (b % 4 * 16)]
  | [b, c] => [sextetChar (b / 4), sextetChar (b % 4 * 16 + c / 16), sextetChar (c % 16 * 4)]
  | b :: c :: d :: rest =>
      sextetChar (b / 4) :: sextetChar (b % 4 * 16 + c / 16) ::
        sextetChar (c % 16 * 4 + d / 64) :: sextetChar (d % 64) :: b64core rest

/-- The `=` padding `btoa` appends, as a function of the input length. -/
def b64pad (n : Nat) : List Char :=
  match n % 3 with
  | 1 => ['=', '=']
  | 2 => ['=']
  | _ => []

/-- JS `btoa` on a list of byte values. -/
def btoa (l : List Nat) : List Char := b64core l ++ b64pad l.length

/-- The worker's encode-side replaces: swap `+` to `-` and slash to `_`, per character. -/
def urlSwapChar (c : Char) : Char := if c = '+' then '-' else if c = '/' then '_' else c

/-- The worker's decode-side replaces: swap `-` to `+` and `_` to slash, per character. -/
def revSwapChar (c : Char) : Char := if c = '-' then '+' else if c = '_' then '/' else c

/-- The worker's trailing-padding strip: drop every trailing `=`. -/
def stripEq (cs : List Char) : List Char := (cs.reverse.dropWhile (fun c => c = '=')).reverse

/-- base64url encoding exactly as the worker builds it:
    `btoa(bytes)` with `+`/`/` swapped to `-`/`_` and trailing `=` stripped. -/
def b64urlEnc (l : List Nat) : List Char := stripEq ((btoa l).map urlSwapChar)

/-- ASCII whitespace stripped by forgiving-base64 (`atob`). -/
def isB64Ws (c : Char) : Bool := c = ' ' || c = '\t' || c = '\n' || c = '\r' || c = '\x0c'

/-- Forgiving-base64: when the length is a multiple of 4, up to two trailing
    `=` characters are removed before decoding. -/
def stripAtobPad (cs : List Char) : List Char :=
  if cs.getLast? = some '=' then
    let cs1 := cs.dropLast
    if cs1.getLast? = some '=' then cs1.dropLast else cs1
  else cs

/-- Reassemble bytes from 6-bit groups, with 2- or 3-character final groups
    contributing 1 or 2 bytes (extra bits discarded, as forgiving-base64 does). -/
def decodeGroups : List Nat → List Nat
  | s0 :: s1 :: s2 :: s3 :: rest =>
      (s0 * 4 + s1 / 16) :: (s1 % 16 * 16 + s2 / 4) :: (s2 % 4 * 64 + s3) :: decodeGroups rest
  | [s0, s1] => [s0 * 4 + s1 / 16]
  | [s0, s1, s2] => [s0 * 4 + s1 / 16, s1 % 16 * 16 + s2 / 4]
  | _ => []

/-- JS `atob` (forgiving-base64 decode); `none` models the thrown
    `InvalidCharacterError`. -/
def atob (cs0 : List Char) : Option (List Nat) :=
  let cs1 := cs0.filter (fun c => !isB64Ws c)
  let cs2 := if cs1.length % 4 = 0 then stripAtobPad cs1 else cs1
  if cs2.length % 4 = 1 then none
  else if cs2.all (fun c => (charSextet c).isSome) then
    some (decodeGroups (cs2.map (fun c => (charSextet c).getD 0)))
  else none

/-- The decode-side padding the worker appends: `"===".slice((len + 3) % 4)`. -/
def padFor (n : Nat) : List Char := ("===".data).drop ((n + 3) % 4)

/-- Decode side of the worker's packing: reverse the url-swap, re-append
    padding computed from the length, and `atob`. -/
def b64urlDec (cs : List Char) : Option (List Nat) :=
  atob (cs.map revSwapChar ++ padFor cs.length)

/-- JS `packed.split(".")` (single-character separator). -/
def splitDot : List Char → List (List Char)
  | [] => [[]]
  | c :: rest =>
      if c = '.' then [] :: splitDot rest
      else
        match splitDot rest with
        | [] => [[c]]
        | t :: ts => (c :: t) :: ts

/-! ### The crypto vault: `encryptString` / `decryptString` -/

/-- Idealised authenticated cipher standing for WebCrypto AES-GCM composed
    with the UTF-8 `TextEncoder`/`TextDecoder` pair.  `enc key iv plaintext`
    yields the ciphertext bytes (including the GCM tag, hence non-empty);
    `dec` inverts genuine encryptions and, by authentication, accepts
    nothing else. -/
structure AEAD where
  enc : List Nat → List Nat → String → List Nat
  dec : List Nat → List Nat → List Nat → Option String
  enc_byte : ∀ k n p, ∀ b ∈ enc k n p, b < 256
  enc_ne : ∀ k n p, enc k n p ≠ []
  dec_enc : ∀ k n p, dec k n (enc k n p) = some p
  dec_sound : ∀ k n c p, dec k n c = some p → enc k n p = c

/-- `encryptString`: pack as `base64url(iv) + "." + base64url(ciphertext)`.
    The fresh random 12-byte nonce is the explicit `iv` argument. -/
def encryptString (A : AEAD) (key iv : List Nat) (plaintext : String) : String :=
  String.mk (b64urlEnc iv) ++ "." ++ String.mk (b64urlEnc (A.enc key iv plaintext))

/-- The splitting/decoding half of `decryptString`: `packed.split(".")`,
    reject empty/missing parts, and base64url-decode both. -/
def unpackParts (packed : String) : Option (List Nat × List Nat) :=
  match splitDot packed.data with
  | iv64 :: ct64 :: _ =>
      if iv64 = [] || ct64 = [] then none
      else
        match b64urlDec iv64, b64urlDec ct64 with
        | some iv, some ct => some (iv, ct)
        | _, _ => none
  | _ => none

/-- `decryptString`; `none` models a thrown error (bad packing, bad base64,
    or an AES-GCM authentication failure). -/
def decryptString (A : AEAD) (key : List Nat) (packed : String) : Option String :=
  match unpackParts packed with
  | none => none
  | some (iv, ct) => A.dec key iv ct

/-! ### base64url round-trip -/

theorem charSextet_sextetChar : ∀ n, n < 64 → charSextet (sextetChar n) = some n := by decide

theorem sextetChar_ne_pad : ∀ n, n < 64 → sextetChar n ≠ '=' := by decide

theorem sextetChar_not_ws : ∀ n, n < 64 → isB64Ws (sextetChar n) = false := by decide

theorem revSwap_urlSwap_sextet : ∀ n, n < 64 →
    revSwapChar (urlSwapChar (sextetChar n)) = sextetChar n := by decide

theorem urlSwap_sextet_ne_dot : ∀ n, n < 64 → urlSwapChar (sextetChar n) ≠ '.' := by decide

theorem urlSwap_sextet_ne_pad : ∀ n, n < 64 → urlSwapChar (sextetChar n) ≠ '=' := by decide

theorem b64core_mem (l : List Nat) :
    (∀ b ∈ l, b < 256) → ∀ c ∈ b64core l, ∃ n, n < 64 ∧ c = sextetChar n := by
  induction l using b64core.induct with
  | case1 => simp [b64core]
  | case2 b =>
      intro h c hc
      have hb : b < 256 := h b (by simp)
      simp [b64core] at hc
      rcases hc with hc | hc
      · exact ⟨b / 4, by omega, hc⟩
      · exact ⟨b % 4 * 16, by omega, hc⟩
  | case3 b c0 =>
      intro h c hc
      have hb : b < 256 := h b (by simp)
      have hc0 : c0 < 256 := h c0 (by simp)
      simp [b64core] at hc
      rcases hc with hc | hc | hc
      · exact ⟨b / 4, by omega, hc⟩
      · exact ⟨b % 4 * 16 + c0 / 16, by omega, hc⟩
      · exact ⟨c0 % 16 * 4, by omega, hc⟩
  | case4 b c0 d rest ih =>
      intro h c hc
      have hb : b < 256 := h b (by simp)
      have hc0 : c0 < 256 := h c0 (by simp)
      have hd : d < 256 := h d (by simp)
      simp only [b64core, List.mem_cons] at hc
      rcases hc with hc | hc | hc | hc | hc
      · exact ⟨b / 4, by omega, hc⟩
      · exact ⟨b % 4 * 16 + c0 / 16, by omega, hc⟩
      · exact ⟨c0 % 16 * 4 + d / 64, by omega, hc⟩
      · exact ⟨d % 64, by omega, hc⟩
      · exact ih (fun x hx => h x (by simp [hx])) c hc

theorem b64core_length (l : List Nat) : (b64core l).length = (4 * l.length + 2) / 3 := by
  induction l using b64core.induct with
  | case1 => simp [b64core]
  | case2 b => simp [b64core]
  | case3 b c => simp [b64core]
  | case4 b c d rest ih => simp [b64core, ih]; omega

theorem b64pad_all_eq (n : Nat) : ∀ c ∈ b64pad n, c = '=' := by
  unfold b64pad
  rcases h : n % 3 with _ | _ | _ | k <;> simp

theorem b64pad_length (n : Nat) : (b64pad n).length = (3 - n % 3) % 3 := by
  unfold b64pad
  have h3 : n % 3 = 0 ∨ n % 3 = 1 ∨ n % 3 = 2 := by omega
  rcases h3 with h | h | h <;> simp [h]

theorem dropWhile_append_all {p : Char → Bool} (a b : List Char)
    (ha : ∀ c ∈ a, p c = true) : (a ++ b).dropWhile p = b.dropWhile p := by
  induction a with
  | nil => simp
  | cons x xs ih =>
      simp only [List.cons_append, List.dropWhile_cons, ha x (by simp)]
      exact ih (fun c hc => ha c (by simp [hc]))

theorem stripEq_append_pad (x pad : List Char) (hx : x.getLast? ≠ some '=')
    (hpad : ∀ c ∈ pad, c = '=') : stripEq (x ++ pad) = x := by
  unfold stripEq
  rw [List.reverse_append, dropWhile_append_all]
  · cases hxr : x.reverse with
    | nil =>
        have : x = [] := by simpa using congrArg List.reverse hxr
        simp [this]
    | cons h t =>
        have hh : h ≠ '=' := by
          intro he
          apply hx
          rw [List.getLast?_eq_head?_reverse, hxr, he]
          rfl
        rw [List.dropWhile_cons]
        simp only [decide_eq_true_eq, hh, if_false]
        rw [← hxr, List.reverse_reverse]
  · intro c hc
    simp only [List.mem_reverse] at hc
    simp [hpad c hc]

theorem b64urlEnc_eq (l : List Nat) (h : ∀ b ∈ l, b < 256) :
    b64urlEnc l = (b64core l).map urlSwapChar := by
  unfold b64urlEnc btoa
  rw [List.map_append]
  have hpad : (b64pad l.length).map urlSwapChar = b64pad l.length := by
    apply List.map_congr_left ?_ |>.trans (List.map_id _)
    intro c hc
    simp [b64pad_all_eq _ c hc, urlSwapChar]
  rw [hpad]
  apply stripEq_append_pad
  · intro he
    have hmem : '=' ∈ (b64core l).map urlSwapChar := by
      obtain ⟨hne, hx⟩ :=
        List.mem_getLast?_eq_getLast (l := (b64core l).map urlSwapChar) (x := '=') (by simp [he])
      rw [hx]
      exact List.getLast_mem hne
    rw [List.mem_map] at hmem
    obtain ⟨c, hc, hcEq⟩ := hmem
    obtain ⟨n, hn, rfl⟩ := b64core_mem l h c hc
    exact urlSwap_sextet_ne_pad n hn hcEq
  · exact b64pad_all_eq _

theorem padFor_core_length (n : Nat) : padFor ((4 * n + 2) / 3) = b64pad n := by
  unfold padFor b64pad
  have h3 : n % 3 = 0 ∨ n % 3 = 1 ∨ n % 3 = 2 := by omega
  rcases h3 with h | h | h
  · have h4 : ((4 * n + 2) / 3 + 3) % 4 = 3 := by omega
    simp [h, h4]
  · have h4 : ((4 * n + 2) / 3 + 3) % 4 = 1 := by omega
    simp [h, h4]
  · have h4 : ((4 * n + 2) / 3 + 3) % 4 = 2 := by omega
    simp [h, h4]

theorem map_revSwap_b64urlEnc (l : List Nat) (h : ∀ b ∈ l, b < 256) :
    (b64urlEnc l).map revSwapChar = b64core l := by
  rw [b64urlEnc_eq l h, List.map_map]
  have : ∀ c ∈ b64core l, (revSwapChar ∘ urlSwapChar) c = id c := by
    intro c hc
    obtain ⟨n, hn, rfl⟩ := b64core_mem l h c hc
    simpa using revSwap_urlSwap_sextet n hn
  rw [List.map_congr_left this, List.map_id]

theorem decodeGroups_core (l : List Nat) (h : ∀ b ∈ l, b < 256) :
    decodeGroups ((b64core l).map fun c => (charSextet c).getD 0) = l := by
  induction l using b64core.induct with
  | case1 => simp [b64core, decodeGroups]
  | case2 b =>
      have hb : b < 256 := h b (by simp)
      rw [b64core]
      simp only [List.map_cons, List.map_nil,
        charSextet_sextetChar (b / 4) (by omega),
        charSextet_sextetChar (b % 4 * 16) (by omega), Option.getD_some]
      simp only [decodeGroups]
      congr 1
      omega
  | case3 b c =>
      have hb : b < 256 := h b (by simp)
      have hc : c < 256 := h c (by simp)
      rw [b64core]
      simp only [List.map_cons, List.map_nil,
        charSextet_sextetChar (b / 4) (by omega),
        charSextet_sextetChar (b % 4 * 16 + c / 16) (by omega),
        charSextet_sextetChar (c % 16 * 4) (by omega), Option.getD_some]
      simp only [decodeGroups]
      congr 1
      · omega
      · congr 1
        omega
  | case4 b c d rest ih =>
      have hb : b < 256 := h b (by simp)
      have hc : c < 256 := h c (by simp)
      have hd : d < 256 := h d (by simp)
      rw [b64core]
      simp only [List.map_cons,
        charSextet_sextetChar (b / 4) (by omega),
        charSextet_sextetChar (b % 4 * 16 + c / 16) (by omega),
        charSextet_sextetChar (c % 16 * 4 + d / 64) (by omega),
        charSextet_sextetChar (d % 64) (by omega), Option.getD_some]
      simp only [decodeGroups]
      congr 1
      · omega
      congr 1
      · omega
      congr 1
      · omega
      exact ih (fun x hx => h x (by simp [hx]))

theorem b64core_getLast_ne_pad (l : List Nat) (h : ∀ b ∈ l, b < 256) :
    (b64core l).getLast? ≠ some '=' := by
  intro he
  obtain ⟨hne, hx⟩ :=
    List.mem_getLast?_eq_getLast (l := b64core l) (x := '=') (by simp [he])
  obtain ⟨n, hn, hEq⟩ := b64core_mem l h _ (hx ▸ List.getLast_mem hne)
  exact sextetChar_ne_pad n hn hEq.symm

theorem stripAtobPad_core_pad (x : List Char) (n : Nat) (hx : x.getLast? ≠ some '=') :
    stripAtobPad (x ++ b64pad n) = x := by
  unfold stripAtobPad b64pad
  have h3 : n % 3 = 0 ∨ n % 3 = 1 ∨ n % 3 = 2 := by omega
  rcases h3 with h | h | h
  · simp [h, hx]
  · simp only [h]
    rw [show x ++ ['=', '='] = (x ++ ['=']) ++ ['='] by simp]
    simp [List.getLast?_concat, List.dropLast_concat]
  · simp only [h]
    simp [List.getLast?_concat, List.dropLast_concat, hx]

theorem atob_btoa (l : List Nat) (h : ∀ b ∈ l, b < 256) : atob (btoa l) = some l := by
  have hlenc := b64core_length l
  have hfilter : (btoa l).filter (fun c => !isB64Ws c) = btoa l := by
    rw [List.filter_eq_self]
    intro c hc
    unfold btoa at hc
    rcases List.mem_append.1 hc with hc | hc
    · obtain ⟨n, hn, rfl⟩ := b64core_mem l h c hc
      simp [sextetChar_not_ws n hn]
    · simp [b64pad_all_eq _ c hc, isB64Ws]
  have hlen4 : (btoa l).length % 4 = 0 := by
    unfold btoa
    rw [List.length_append, hlenc]
    have h3 : l.length % 3 = 0 ∨ l.length % 3 = 1 ∨ l.length % 3 = 2 := by omega
    rcases h3 with h | h | h <;> simp [b64pad, h] <;> omega
  have hstrip : stripAtobPad (btoa l) = b64core l :=
    stripAtobPad_core_pad _ _ (b64core_getLast_ne_pad l h)
  have hmod : ¬(b64core l).length % 4 = 1 := by rw [hlenc]; omega
  have hall : (b64core l).all (fun c => (charSextet c).isSome) = true := by
    rw [List.all_eq_true]
    intro c hc
    obtain ⟨n, hn, rfl⟩ := b64core_mem l h c hc
    simp [charSextet_sextetChar n hn]
  simp only [atob]
  rw [hfilter, if_pos hlen4, hstrip, if_neg hmod, if_pos hall, decodeGroups_core l h]

theorem b64url_roundtrip (l : List Nat) (h : ∀ b ∈ l, b < 256) :
    b64urlDec (b64urlEnc l) = some l := by
  unfold b64urlDec
  have hlen : (b64urlEnc l).length = (4 * l.length + 2) / 3 := by
    rw [b64urlEnc_eq l h, List.length_map, b64core_length]
  rw [map_revSwap_b64urlEnc l h, hlen, padFor_core_length]
  exact atob_btoa l h

theorem splitDot_no_dot (b : List Char) (hb : '.' ∉ b) : splitDot b = [b] := by
  induction b with
  | nil => rfl
  | cons c rest ih =>
      have hc : ¬c = '.' := fun he => hb (by simp [he])
      have hrest : '.' ∉ rest := fun hm => hb (by simp [hm])
      simp only [splitDot, if_neg hc]
      rw [ih hrest]

theorem splitDot_append (a b : List Char) (ha : '.' ∉ a) :
    splitDot (a ++ '.' :: b) = a :: splitDot b := by
  induction a with
  | nil => simp [splitDot]
  | cons c rest ih =>
      have hc : ¬c = '.' := fun he => ha (by simp [he])
      have hrest : '.' ∉ rest := fun hm => ha (by simp [hm])
      simp only [List.cons_append, splitDot, if_neg hc, List.append_eq]
      rw [ih hrest]

theorem b64urlEnc_no_dot (l : List Nat) (h : ∀ b ∈ l, b < 256) : '.' ∉ b64urlEnc l := by
  intro hm
  rw [b64urlEnc_eq l h, List.mem_map] at hm
  obtain ⟨c, hc, hcEq⟩ := hm
  obtain ⟨n, hn, rfl⟩ := b64core_mem l h c hc
  exact urlSwap_sextet_ne_dot n hn hcEq

theorem b64urlEnc_ne_nil (l : List Nat) (h : ∀ b ∈ l, b < 256) (hl : l ≠ []) :
    b64urlEnc l ≠ [] := by
  have hlen : (b64urlEnc l).length = (4 * l.length + 2) / 3 := by
    rw [b64urlEnc_eq l h, List.length_map, b64core_length]
  intro he
  rw [he] at hlen
  have h0 : l.length ≠ 0 := fun h0 => hl (List.length_eq_zero.1 h0)
  simp only [List.length_nil] at hlen
  omega

/-- C2: for every plaintext (the empty string and arbitrarily long strings
    included) and every fresh 12-byte nonce, `decryptString` inverts
    `encryptString` under the same key; and `decryptString` only ever returns
    the exact plaintext of a genuine encryption under the nonce packed in the
    input, so a packed ciphertext with a flipped bit or truncated content —
    whose ciphertext part is then not an authentic AES-GCM encryption — fails
    with an error (`none`) rather than yielding corrupted plaintext. -/
theorem encryptString_decryptString_roundtrip (A : AEAD) (key iv : List Nat) (p : String)
    (hiv12 : iv.length = 12) (hivb : ∀ b ∈ iv, b < 256) :
    decryptString A key (encryptString A key iv p) = some p ∧
    (∀ packed q, decryptString A key packed = some q →
      ∃ n c, unpackParts packed = some (n, c) ∧ A.enc key n q = c) := by
  constructor
  · have hctb : ∀ b ∈ A.enc key iv p, b < 256 := A.enc_byte key iv p
    have hdata : (encryptString A key iv p).data
        = b64urlEnc iv ++ '.' :: b64urlEnc (A.enc key iv p) := by
      unfold encryptString
      rw [String.data_append, String.data_append, List.append_assoc]
      rfl
    have h1 : ¬b64urlEnc iv = [] :=
      b64urlEnc_ne_nil iv hivb (by intro h0; rw [h0] at hiv12; simp at hiv12)
    have h2 : ¬b64urlEnc (A.enc key iv p) = [] :=
      b64urlEnc_ne_nil _ hctb (A.enc_ne key iv p)
    unfold decryptString unpackParts
    rw [hdata, splitDot_append _ _ (b64urlEnc_no_dot iv hivb),
        splitDot_no_dot _ (b64urlEnc_no_dot _ hctb)]
    simp only [h1, h2, decide_False, Bool.or_self, Bool.false_eq_true, if_false,
      b64url_roundtrip iv hivb, b64url_roundtrip _ hctb]
    exact A.dec_enc key iv p
  · intro packed q hq
    unfold decryptString at hq
    cases hup : unpackParts packed with
    | none => rw [hup] at hq; cases hq
    | some pr =>
        obtain ⟨n, c⟩ := pr
        rw [hup] at hq
        exact ⟨n, c, rfl, A.dec_sound key n c q hq⟩

/-! ### A concrete instance of the cipher interface, used to exercise theorems -/

/-- Three-byte little-endian encoding of a code point (every code point is
    below 2^24). -/
def charBytes (c : Char) : List Nat := [c.toNat % 256, c.toNat / 256 % 256, c.toNat / 65536]

/-- Byte encoding of a string, three bytes per character. -/
def strBytes (p : String) : List Nat := p.data.foldr (fun c acc => charBytes c ++ acc) []

/-- Inverse of the three-byte encoding, validating each chunk. -/
def bytesChars : List Nat → Option (List Char)
  | [] => some []
  | b0 :: b1 :: b2 :: r =>
      let n := b0 + 256 * b1 + 65536 * b2
      let c := Char.ofNat n
      if charBytes c = [b0, b1, b2] then (bytesChars r).map (fun cs => c :: cs) else none
  | [_] => none
  | [_, _] => none

/-- A 16-byte tag, standing in for the GCM authentication tag. -/
def tagBytes : List Nat := List.replicate 16 0

theorem char_toNat_lt (c : Char) : c.toNat < 1114112 := by
  have h : c.val.toNat < 55296 ∨ (57343 < c.val.toNat ∧ c.val.toNat < 1114112) := c.valid
  have he : c.toNat = c.val.toNat := rfl
  rcases h with h | ⟨h1, h2⟩ <;> omega

theorem strBytes_lt (p : String) : ∀ b ∈ strBytes p, b < 256 := by
  unfold strBytes
  induction p.data with
  | nil => simp
  | cons c r ih =>
      intro b hb
      simp only [List.foldr_cons] at hb
      rcases List.mem_append.1 hb with hb | hb
      · have ht := char_toNat_lt c
        unfold charBytes at hb
        simp only [List.mem_cons, List.not_mem_nil, or_false] at hb
        rcases hb with hb | hb | hb <;> omega
      · exact ih b hb

theorem bytesChars_foldr (cs : List Char) :
    bytesChars (cs.foldr (fun c acc => charBytes c ++ acc) []) = some cs := by
  induction cs with
  | nil => rfl
  | cons c r ih =>
      have ht := char_toNat_lt c
      have hn : c.toNat % 256 + 256 * (c.toNat / 256 % 256) + 65536 * (c.toNat / 65536)
          = c.toNat := by omega
      show bytesChars (c.toNat % 256 :: c.toNat / 256 % 256 :: c.toNat / 65536
            :: r.foldr (fun c acc => charBytes c ++ acc) []) = some (c :: r)
      simp only [bytesChars, hn, Char.ofNat_toNat]
      rw [if_pos (show charBytes c
            = [c.toNat % 256, c.toNat / 256 % 256, c.toNat / 65536] from rfl), ih]
      rfl

theorem bytesChars_sound : ∀ (l : List Nat) (cs : List Char), bytesChars l = some cs →
    cs.foldr (fun c acc => charBytes c ++ acc) [] = l
  | [], cs, h => by
      simp only [bytesChars] at h
      cases h
      rfl
  | b0 :: b1 :: b2 :: r, cs, h => by
      simp only [bytesChars] at h
      by_cases hcb : charBytes (Char.ofNat (b0 + 256 * b1 + 65536 * b2)) = [b0, b1, b2]
      · rw [if_pos hcb] at h
        cases hr : bytesChars r with
        | none => rw [hr] at h; cases h
        | some cs0 =>
            rw [hr] at h
            simp only [Option.map_some'] at h
            cases h
            simp only [List.foldr_cons, bytesChars_sound r cs0 hr, hcb]
            simp
      · rw [if_neg hcb] at h
        cases h
  | [_], cs, h => Option.noConfusion h
  | [_, _], cs, h => Option.noConfusion h

/-- A concrete authenticated cipher satisfying the `AEAD` interface:
    the three-byte character codec followed by a constant 16-byte tag. -/
def demoAEAD : AEAD where
  enc := fun _ _ p => strBytes p ++ tagBytes
  dec := fun _ _ c =>
    if 16 ≤ c.length ∧ c.drop (c.length - 16) = tagBytes then
      (bytesChars (c.take (c.length - 16))).map String.mk
    else none
  enc_byte := by
    intro k n p b hb
    rcases List.mem_append.1 hb with hb | hb
    · exact strBytes_lt p b hb
    · unfold tagBytes at hb
      rw [List.eq_of_mem_replicate hb]
      omega
  enc_ne := by
    intro k n p h
    dsimp only at h
    have : (strBytes p ++ tagBytes).length = (strBytes p).length + 16 := by
      simp [tagBytes]
    rw [h] at this
    simp at this
  dec_enc := by
    intro k n p
    dsimp only
    have hlen : (strBytes p ++ tagBytes).length = (strBytes p).length + 16 := by
      simp [tagBytes]
    have hsub : (strBytes p ++ tagBytes).length - 16 = (strBytes p).length := by omega
    have hdrop : (strBytes p ++ tagBytes).drop ((strBytes p ++ tagBytes).length - 16)
        = tagBytes := by rw [hsub]; exact List.drop_left _ _
    have htake : (strBytes p ++ tagBytes).take ((strBytes p ++ tagBytes).length - 16)
        = strBytes p := by rw [hsub]; exact List.take_left _ _
    rw [if_pos ⟨by omega, hdrop⟩, htake]
    unfold strBytes
    rw [bytesChars_foldr]
    rfl
  dec_sound := by
    intro k n c p h
    dsimp only at h ⊢
    by_cases hc : 16 ≤ c.length ∧ c.drop (c.length - 16) = tagBytes
    · rw [if_pos hc] at h
      cases hb : bytesChars (c.take (c.length - 16)) with
      | none => rw [hb] at h; cases h
      | some cs =>
          rw [hb] at h
          simp only [Option.map_some'] at h
          have hp : p = String.mk cs := by cases h; rfl
          have hfold := bytesChars_sound _ cs hb
          show strBytes p ++ tagBytes = c
          rw [hp]
          show cs.foldr (fun c acc => charBytes c ++ acc) [] ++ tagBytes = c
          rw [hfold, ← hc.2]
          exact List.take_append_drop _ c
    · rw [if_neg hc] at h
      cases h

/-- C2 witness: the round-trip theorem applied at the concrete cipher, an
    all-zero key, a 12-byte nonce and a concrete plaintext, with every
    hypothesis discharged on that input. -/
theorem encryptString_decryptString_roundtrip_witness :
    (List.replicate 12 0).length = 12 ∧ (∀ b ∈ List.replicate 12 0, b < 256) ∧
    decryptString demoAEAD [] (encryptString demoAEAD [] (List.replicate 12 0) "tok")
      = some "tok" :=
  ⟨by decide, by decide,
    (encryptString_decryptString_roundtrip demoAEAD [] (List.replicate 12 0) "tok"
      (by decide) (by decide)).1⟩

/-! ### Rate limiter -/

structure RateLimitEntry where
  count : Nat
  resetAt : Int
deriving DecidableEq

def RLMap := String → Option RateLimitEntry

structure RateLimitCfg where
  limit : Nat
  windowMs : Nat

def RATE_LIMITS_pair : RateLimitCfg := ⟨10, 60000⟩

def RATE_LIMITS_accessToken : RateLimitCfg := ⟨60, 60000⟩

def RATE_LIMITS_pairPoll : RateLimitCfg := ⟨120, 60000⟩

def RATE_LIMITS_global : RateLimitCfg := ⟨300, 60000⟩

/-- `checkRateLimit(key, limit, windowMs)`: reset to 1 on a missing or elapsed
    entry, reject at the ceiling, otherwise increment.  `now` is `Date.now()`;
    the updated map is returned alongside the verdict. -/
def checkRateLimit (key : String) (limit windowMs : Nat) (now : Int) (m : RLMap) :
    Bool × RLMap :=
  match m key with
  | none => (true, fun k => if k = key then some ⟨1, now + windowMs⟩ else m k)
  | some entry =>
      if now ≥ entry.resetAt then
        (true, fun k => if k = key then some ⟨1, now + windowMs⟩ else m k)
      else if entry.count ≥ limit then (false, m)
      else (true, fun k => if k = key then some ⟨entry.count + 1, entry.resetAt⟩ else m k)

/-- `cleanupRateLimitMap`: at most once per minute, drop every expired entry.
    Returns the updated map and the updated `lastCleanup`. -/
def cleanupRateLimitMap (m : RLMap) (lastCleanup now : Int) : RLMap × Int :=
  if now - lastCleanup < 60000 then (m, lastCleanup)
  else
    (fun k =>
      match m k with
      | some e => if now ≥ e.resetAt then none else some e
      | none => none, now)

/-- Iterated `checkRateLimit` over a list of call times against one key. -/
def applyCalls (key : String) (limit windowMs : Nat) (m : RLMap) :
    List Int → List Bool × RLMap
  | [] => ([], m)
  | t :: ts =>
      let r1 := checkRateLimit key limit windowMs t m
      let r2 := applyCalls key limit windowMs r1.2 ts
      (r1.1 :: r2.1, r2.2)

/-! ### Records, store, environment -/

inductive PairStatus where
  | pending
  | completed
  | error
deriving DecidableEq

structure PairRecord where
  status : PairStatus
  createdAt : Int
  sessionToken : Option String
  error : Option String
deriving DecidableEq

structure TokenRecord where
  updatedAt : Int
  lastUsedAt : Int
  accessTokenEnc : String
  accessTokenExpiresAt : Int
  refreshTokenEnc : String
deriving DecidableEq

/-- The `AUTH_KV` namespace: `pair:` and `token:` keyed records, each stored
    with the TTL passed to `put`.  The two prefixes cannot collide, so the
    namespace is modelled as two maps keyed by the unprefixed id. -/
structure KV where
  pair : String → Option (PairRecord × Nat)
  token : String → Option (TokenRecord × Nat)

def KV.putPair (kv : KV) (id : String) (r : PairRecord) (ttl : Nat) : KV :=
  { kv with pair := fun k => if k = id then some (r, ttl) else kv.pair k }

def KV.putToken (kv : KV) (id : String) (r : TokenRecord) (ttl : Nat) : KV :=
  { kv with token := fun k => if k = id then some (r, ttl) else kv.token k }

def KV.delToken (kv : KV) (id : String) : KV :=
  { kv with token := fun k => if k = id then none else kv.token k }

structure EnvCfg where
  ST_CLIENT_ID : String
  ST_SCOPES : Option String
  ST_REDIRECT_URI : Option String
  ST_TOKEN_URL : Option String
  ST_AUTHORIZATION_URL : Option String
  PUBLIC_BASE_URL : Option String

/-- JS `a || b` for a nullable string `a` (empty string is falsy). -/
def jsOr (o : Option String) (dflt : String) : String :=
  match o with
  | some s => if s = "" then dflt else s
  | none => dflt

/-- `trimTrailingSlashes`. -/
def trimTrailingSlashes (s : String) : String :=
  String.mk (s.data.reverse.dropWhile (fun c => c = '/')).reverse

structure Urls where
  authorizeUrl : String
  tokenUrl : String
  redirectUri : String

/-- `getUrls(env)`; `Except.error` models the thrown `Error`. -/
def getUrls (env : EnvCfg) : Except String Urls :=
  let tokenUrl := jsOr env.ST_TOKEN_URL "https://auth-global.api.smartthings.com/oauth/token"
  let authorizeUrl := jsOr env.ST_AUTHORIZATION_URL "https://api.smartthings.com/oauth/authorize"
  let redirectUri := jsOr env.ST_REDIRECT_URI
      (match env.PUBLIC_BASE_URL with
        | some p => if p = "" then "" else trimTrailingSlashes p ++ "/v1/callback"
        | none => "")
  if redirectUri = "" then
    Except.error "Missing redirect URI: set ST_REDIRECT_URI or PUBLIC_BASE_URL"
  else Except.ok ⟨authorizeUrl, tokenUrl, redirectUri⟩

def hexDigit (n : Nat) : Char := "0123456789abcdef".data.getD n '0'

/-- `b.toString(16).padStart(2, "0")` for a byte value (`b < 256`). -/
def hexByte (b : Nat) : String :=
  if b < 16 then String.mk ['0', hexDigit b]
  else String.mk [hexDigit (b / 16), hexDigit (b % 16)]

/-- `randomHex(n)` applied to the `n` random bytes the platform supplied. -/
def randomHex (bytes : List Nat) : String :=
  bytes.foldl (fun acc b => acc ++ hexByte b) ""

/-- `randomBase64Url(n)` applied to the `n` random bytes the platform supplied. -/
def randomBase64Url (bytes : List Nat) : String := String.mk (b64urlEnc bytes)

def isLowerHexChar (c : Char) : Bool :=
  decide (97 ≤ c.toNat ∧ c.toNat ≤ 102) || decide (48 ≤ c.toNat ∧ c.toNat ≤ 57)

/-- The broker's 36-character lowercase-hex test for pair ids and `state`. -/
def isHex36 (s : String) : Bool := s.length = 36 && s.data.all isLowerHexChar

/-! ### Scope encoding -/

/-- The whitespace class tested by `splitOnAsciiWhitespace`
    (space, tab, LF, CR, FF, VT). -/
def isJsTokenWs (c : Char) : Bool :=
  c.toNat = 32 || c.toNat = 9 || c.toNat = 10 || c.toNat = 13 || c.toNat = 12 || c.toNat = 11

/-- `splitOnAsciiWhitespace`: maximal runs of non-whitespace characters. -/
def splitWsAux : List Char → List (List Char)
  | [] => []
  | c :: rest =>
      if isJsTokenWs c then splitWsAux rest
      else
        (c :: rest.takeWhile (fun x => !isJsTokenWs x)) ::
          splitWsAux (rest.dropWhile (fun x => !isJsTokenWs x))
termination_by l => l.length
decreasing_by
  · simp only [List.length_cons]; omega
  · simp only [List.length_cons]
    have h := (List.dropWhile_sublist (fun x => !isJsTokenWs x) (l := rest)).length_le
    omega

def splitOnAsciiWhitespace (s : String) : List String := (splitWsAux s.data).map String.mk

/-- The character class `encodeURIComponent` leaves unescaped. -/
def isUriUnreserved (c : Char) : Bool :=
  c.isAlphanum || c == '-' || c == '_' || c == '.' || c == '!' || c == '~' || c == '*' ||
    c == '\x27' || c == '(' || c == ')'

/-- UTF-8 bytes of a code point. -/
def utf8Bytes (c : Char) : List Nat :=
  let n := c.toNat
  if n < 128 then [n]
  else if n < 2048 then [192 + n / 64, 128 + n % 64]
  else if n < 65536 then [224 + n / 4096, 128 + n / 64 % 64, 128 + n % 64]
  else [240 + n / 262144, 128 + n / 4096 % 64, 128 + n / 64 % 64, 128 + n % 64]

def hexUpper (n : Nat) : Char := "0123456789ABCDEF".data.getD n '0'

/-- A percent-escape `%HH` (uppercase hex). -/
def pctByte (b : Nat) : List Char := ['%', hexUpper (b / 16), hexUpper (b % 16)]

/-- JS `encodeURIComponent`, per character: unreserved characters stay
    literal, everything else becomes percent-escaped UTF-8 bytes. -/
def encChar (c : Char) : List Char :=
  if isUriUnreserved c then [c] else ((utf8Bytes c).map pctByte).flatten

def encodeURIComponent (s : String) : String :=
  String.mk ((s.data.map encChar).flatten)

/-- JS `String.replaceAll` (and `replace` with a global regex) for a
    non-empty literal pattern, on char lists: scan left to right, replacing
    non-overlapping occurrences. -/
def replaceAllL (pat rep : List Char) : List Char → List Char
  | [] => []
  | c :: rest =>
      if pat.isPrefixOf (c :: rest) && !pat.isEmpty then
        rep ++ replaceAllL pat rep (rest.drop (pat.length - 1))
      else c :: replaceAllL pat rep rest
termination_by l => l.length
decreasing_by
  · simp only [List.length_cons]
    have h := List.length_drop (pat.length - 1) rest
    omega
  · simp only [List.length_cons]; omega

/-- The per-scope mapping inside `encodeScopesForSmartThings`:
    `encodeURIComponent(scope)` with `%3A`/`%3a` restored to `:` and
    `%2A`/`%2a` restored to `*`. -/
def smartScope (t : String) : String :=
  String.mk (replaceAllL "%2a".data "*".data
    (replaceAllL "%2A".data "*".data
      (replaceAllL "%3a".data ":".data
        (replaceAllL "%3A".data ":".data (encodeURIComponent t).data))))

/-- `encodeScopesForSmartThings`: split on ASCII whitespace, encode each
    scope keeping `:` and `*` literal, and join with a literal `%20`. -/
def encodeScopesForSmartThings (scopes : String) : String :=
  String.intercalate "%20" ((splitOnAsciiWhitespace scopes).map smartScope)

/-- `escapeHtml` (five global single-character replaces). -/
def escapeHtml (s : String) : String :=
  String.mk (replaceAllL ['\x27'] "&#39;".data
    (replaceAllL ['"'] "&quot;".data
      (replaceAllL ['>'] "&gt;".data
        (replaceAllL ['<'] "&lt;".data
          (replaceAllL ['&'] "&amp;".data s.data)))))

/-! ### HTTP responses -/

/-- The JSON payload shapes the worker produces (one constructor per `json(...)`
    call-site shape; error helpers all produce `{ error: msg }`). -/
inductive RespBody where
  | errMsg (msg : String)
  | health (time : Int)
  | pairCreated (pairId : String) (authorizationUrl : String) (expiresInSeconds : Nat)
  | pollStatus (status : PairStatus) (sessionToken : Option String) (error : Option String)
  | tokenOk (accessToken : String) (expiresAt : Int)
  | okTrue
  | html (title : String) (body : String)
deriving DecidableEq

structure Response where
  status : Nat
  headers : List (String × String)
  body : RespBody
deriving DecidableEq

def JSON_HEADERS : List (String × String) :=
  [("content-type", "application/json; charset=utf-8"), ("cache-control", "no-store")]

/-- `json(data, init)`. -/
def jsonResponse (b : RespBody) (status : Nat) : Response := ⟨status, JSON_HEADERS, b⟩

def unauthorized (msg : String) : Response := jsonResponse (.errMsg msg) 401

def notFound : Response := jsonResponse (.errMsg "Not Found") 404

def tooManyRequests : Response := jsonResponse (.errMsg "Too many requests") 429

def internalError : Response := jsonResponse (.errMsg "Internal server error") 500

def HTML_HEADERS : List (String × String) :=
  [("content-type", "text/html; charset=utf-8"), ("cache-control", "no-store"),
   ("x-content-type-options", "nosniff"), ("x-frame-options", "DENY"),
   ("content-security-policy", "default-src \x27none\x27; style-src \x27unsafe-inline\x27")]

/-- `htmlPage(title, bodyHtml)`; the fixed HTML wrapper template is
    presentation and is carried as its `title`/`body` constituents. -/
def htmlPage (title bodyHtml : String) : Response := ⟨200, HTML_HEADERS, .html title bodyHtml⟩

/-! ### The broker operations -/

structure TokenTriple where
  access_token : String
  refresh_token : String
  expires_in : Int
deriving DecidableEq

structure RefreshResp where
  access_token : String
  refresh_token : Option String
  expires_in : Int
deriving DecidableEq

/-- Per-request context: configuration plus everything the platform supplies
    during one request (clock, fresh randomness, and the outcomes of the two
    upstream OAuth calls; `Except.error` / `none` model a thrown error or
    non-2xx response).  `urlWithQuery` models `new URL(base)` plus setting
    `search` and `toString` (`none` = invalid base URL, which throws). -/
structure Ctx where
  A : AEAD
  key : List Nat
  env : EnvCfg
  now : Int
  pairBytes : List Nat
  sessionBytes : List Nat
  ivA : List Nat
  ivR : List Nat
  exchange : Except String TokenTriple
  refresh : Option RefreshResp
  urlWithQuery : String → String → Option String

def SESSION_TTL_SECONDS : Nat := 60 * 24 * 60 * 60

/-- `POST /v1/pair` after its rate-limit gate (StartPairing). -/
def handleStartPair (ctx : Ctx) (kv : KV) : KV × Response :=
  let pairId := randomHex ctx.pairBytes
  match getUrls ctx.env with
  | .error _ => (kv, internalError)
  | .ok urls =>
    let scopes := (match ctx.env.ST_SCOPES with
      | some s => s
      | none => "r:devices:* x:devices:*").trim
    let state := pairId
    let encodedScopes := encodeScopesForSmartThings scopes
    let query := String.intercalate "&"
      ["response_type=code",
       "client_id=" ++ encodeURIComponent ctx.env.ST_CLIENT_ID,
       "redirect_uri=" ++ encodeURIComponent urls.redirectUri,
       "scope=" ++ encodedScopes,
       "state=" ++ encodeURIComponent state]
    match ctx.urlWithQuery urls.authorizeUrl query with
    | none => (kv, internalError)
    | some authUrl =>
      let kv1 := kv.putPair pairId ⟨.pending, ctx.now, none, none⟩ (15 * 60)
      (kv1, jsonResponse (.pairCreated pairId authUrl (15 * 60)) 200)

/-- `GET /v1/callback` (HandleCallback).  The `code` value itself only feeds
    the upstream exchange, whose outcome `ctx.exchange` carries. -/
def handleCallback (ctx : Ctx) (kv : KV)
    (code state oauthError oauthErrorDescription : Option String) (rawQuery : String) :
    KV × Response :=
  if truthy state && !isHex36 (state.getD "") then
    (kv, htmlPage "SmartThings Auth - Error"
      "<h1>Authentication failed</h1><p>Invalid session state.</p>")
  else if truthy oauthError then
    let msg := "SmartThings returned an OAuth error: " ++ oauthError.getD "" ++
      (if truthy oauthErrorDescription then " - " ++ oauthErrorDescription.getD "" else "")
    let kv1 :=
      if truthy state then
        match kv.pair (state.getD "") with
        | some (p, _) =>
            if p.status = .pending then
              kv.putPair (state.getD "") { p with status := .error, error := some msg } (15 * 60)
            else kv
        | none => kv
      else kv
    (kv1, htmlPage "SmartThings Auth - Error"
      ("<h1>Authentication failed</h1><p>" ++ escapeHtml msg ++ "</p>" ++
        (if rawQuery ≠ "" then
          "<h2>Callback Query</h2><pre>" ++ escapeHtml rawQuery ++ "</pre>"
        else "") ++
        "<p>Return to Raycast and try again.</p>"))
  else if !truthy code || !truthy state then
    (kv, htmlPage "SmartThings Auth - Error"
      "<h1>Authentication failed</h1><p>Missing <code>code</code> or <code>state</code>.</p>")
  else
    match kv.pair (state.getD "") with
    | none =>
        (kv, htmlPage "SmartThings Auth - Error"
          "<h1>Authentication failed</h1><p>This login session is not recognized or has expired. Return to Raycast and try again.</p>")
    | some (p, _) =>
        if p.status ≠ .pending then
          (kv, htmlPage "SmartThings Auth"
            "<h1>Already connected</h1><p>You can close this tab and return to Raycast.</p>")
        else
          let fail := fun (msg : String) =>
            (kv.putPair (state.getD "") { p with status := .error, error := some msg } (15 * 60),
             htmlPage "SmartThings Auth - Error"
               ("<h1>Authentication failed</h1><p>" ++ escapeHtml msg ++
                 "</p><p>Return to Raycast and try again.</p>"))
          match getUrls ctx.env with
          | .error msg => fail msg
          | .ok _urls =>
              match ctx.exchange with
              | .error msg => fail msg
              | .ok tok =>
                  let sessionToken := randomBase64Url ctx.sessionBytes
                  let accessTokenExpiresAt := ctx.now + tok.expires_in * 1000
                  let tokenRecord : TokenRecord :=
                    ⟨ctx.now, ctx.now, encryptString ctx.A ctx.key ctx.ivA tok.access_token,
                     accessTokenExpiresAt, encryptString ctx.A ctx.key ctx.ivR tok.refresh_token⟩
                  let kv1 := kv.putToken sessionToken tokenRecord SESSION_TTL_SECONDS
                  let kv2 := kv1.putPair (state.getD "")
                    { p with status := .completed, sessionToken := some sessionToken } (15 * 60)
                  (kv2, htmlPage "SmartThings Auth - Connected"
                    "<h1>Connected</h1><p>You can close this tab and return to Raycast.</p>")

/-- JS `pathname.split("/")` (single-character separator). -/
def splitSlash : List Char → List (List Char)
  | [] => [[]]
  | c :: rest =>
      if c = '/' then [] :: splitSlash rest
      else
        match splitSlash rest with
        | [] => [[c]]
        | t :: ts => (c :: t) :: ts

/-- `GET /v1/pair/{pairId}` after its rate-limit gate (PollStatus):
    a pure read.  `split("/").pop()` is the last split component. -/
def handlePollStatus (kv : KV) (path : String) : Response :=
  match (splitSlash path.data).getLast? with
  | none => notFound
  | some pidCs =>
      let pid := String.mk pidCs
      if pid = "" || !isHex36 pid then notFound
      else
        match kv.pair pid with
        | none => notFound
        | some (p, _) => jsonResponse (.pollStatus p.status p.sessionToken p.error) 200

/-- `POST /v1/access-token` after its rate-limit gate (GetAccessToken).
    The decrypted refresh token feeds the upstream refresh call, whose
    outcome `ctx.refresh` carries. -/
def handleAccessToken (ctx : Ctx) (kv : KV) (bearer : Option String) : KV × Response :=
  if !truthy bearer then (kv, unauthorized "Unauthorized")
  else
    let sessionToken := bearer.getD ""
    match kv.token sessionToken with
    | none => (kv, unauthorized "Invalid session")
    | some (record, _) =>
        let expiresAt := record.accessTokenExpiresAt
        if expiresAt - ctx.now > 60000 then
          let updatedRecord := { record with lastUsedAt := ctx.now }
          let kv1 := kv.putToken sessionToken updatedRecord SESSION_TTL_SECONDS
          match decryptString ctx.A ctx.key record.accessTokenEnc with
          | none => (kv1, internalError)
          | some accessToken =>
              (kv1, jsonResponse (.tokenOk accessToken record.accessTokenExpiresAt) 200)
        else
          match decryptString ctx.A ctx.key record.refreshTokenEnc with
          | none => (kv, internalError)
          | some _refreshToken =>
              match ctx.refresh with
              | none => (kv, internalError)
              | some refreshed =>
                  let newExpiresAt := ctx.now + refreshed.expires_in * 1000
                  let newRecord : TokenRecord :=
                    ⟨ctx.now, ctx.now,
                     encryptString ctx.A ctx.key ctx.ivA refreshed.access_token,
                     newExpiresAt,
                     if truthy refreshed.refresh_token then
                       encryptString ctx.A ctx.key ctx.ivR (refreshed.refresh_token.getD "")
                     else record.refreshTokenEnc⟩
                  let kv1 := kv.putToken sessionToken newRecord SESSION_TTL_SECONDS
                  (kv1, jsonResponse (.tokenOk refreshed.access_token newExpiresAt) 200)

/-- `POST /v1/logout` (Logout): unconditional delete. -/
def handleLogout (kv : KV) (bearer : Option String) : KV × Response :=
  if !truthy bearer then (kv, unauthorized "Unauthorized")
  else (kv.delToken (bearer.getD ""), jsonResponse .okTrue 200)

/-- One inbound request: the URL/query/header parsing the platform performs
    is carried as fields (`bearer` is the result of `getBearerToken`). -/
structure Req where
  method : String
  path : String
  qCode : Option String
  qState : Option String
  qError : Option String
  qErrorDescription : Option String
  rawQuery : String
  bearer : Option String
  cfConnectingIp : Option String

/-- Worker-global mutable state: the KV namespace, the in-memory rate-limit
    map and its `lastCleanup` stamp. -/
structure WState where
  kv : KV
  rl : RLMap
  lastCleanup : Int

/-- The worker's `fetch` entry point: lazy cleanup, the global rate-limit
    gate, then route dispatch with the per-route gates. -/
def fetchBroker (ctx : Ctx) (st : WState) (req : Req) : WState × Response :=
  let clientIp := jsOr req.cfConnectingIp "unknown"
  let cl := cleanupRateLimitMap st.rl st.lastCleanup ctx.now
  let g := checkRateLimit ("global:" ++ clientIp) RATE_LIMITS_global.limit
    RATE_LIMITS_global.windowMs ctx.now cl.1
  let st1 : WState := ⟨st.kv, g.2, cl.2⟩
  if !g.1 then (st1, tooManyRequests)
  else if req.method = "GET" ∧ req.path = "/health" then
    (st1, jsonResponse (.health ctx.now) 200)
  else if req.method = "POST" ∧ req.path = "/v1/pair" then
    let gp := checkRateLimit ("pair:" ++ clientIp) RATE_LIMITS_pair.limit
      RATE_LIMITS_pair.windowMs ctx.now g.2
    if !gp.1 then (⟨st.kv, gp.2, cl.2⟩, tooManyRequests)
    else
      let r := handleStartPair ctx st.kv
      (⟨r.1, gp.2, cl.2⟩, r.2)
  else if req.method = "GET" ∧ req.path = "/v1/callback" then
    let r := handleCallback ctx st.kv req.qCode req.qState req.qError
      req.qErrorDescription req.rawQuery
    (⟨r.1, g.2, cl.2⟩, r.2)
  else if req.method = "GET" ∧ req.path.startsWith "/v1/pair/" then
    let gq := checkRateLimit ("pairPoll:" ++ clientIp) RATE_LIMITS_pairPoll.limit
      RATE_LIMITS_pairPoll.windowMs ctx.now g.2
    if !gq.1 then (⟨st.kv, gq.2, cl.2⟩, tooManyRequests)
    else (⟨st.kv, gq.2, cl.2⟩, handlePollStatus st.kv req.path)
  else if req.method = "POST" ∧ req.path = "/v1/access-token" then
    let ga := checkRateLimit ("accessToken:" ++ clientIp) RATE_LIMITS_accessToken.limit
      RATE_LIMITS_accessToken.windowMs ctx.now g.2
    if !ga.1 then (⟨st.kv, ga.2, cl.2⟩, tooManyRequests)
    else
      let r := handleAccessToken ctx st.kv req.bearer
      (⟨r.1, ga.2, cl.2⟩, r.2)
  else if req.method = "POST" ∧ req.path = "/v1/logout" then
    let r := handleLogout st.kv req.bearer
    (⟨r.1, g.2, cl.2⟩, r.2)
  else (st1, notFound)

/-! ### Concrete fixtures used by the witnesses -/

def demoEnv : EnvCfg := ⟨"cid", none, some "https://broker.example/cb", none, none, none⟩

def demoCtx : Ctx :=
  ⟨demoAEAD, [], demoEnv, 1000000, List.replicate 18 7, List.replicate 32 1,
   List.replicate 12 0, List.replicate 12 1, Except.ok ⟨"at", "rt", 3600⟩,
   some ⟨"at2", some "rt2", 3600⟩, fun b q => some (b ++ "?" ++ q)⟩

def emptyKV : KV := ⟨fun _ => none, fun _ => none⟩

def demoPairId : String := String.mk (List.replicate 36 'a')

def demoPairRec : PairRecord := ⟨.completed, 0, some "sess", none⟩

def kvTerminal : KV :=
  ⟨fun k => if k = demoPairId then some (demoPairRec, 900) else none, fun _ => none⟩

def demoAccessEnc : String := encryptString demoAEAD [] (List.replicate 12 0) "tokA"

def demoRefreshEnc : String := encryptString demoAEAD [] (List.replicate 12 1) "tokR"

def demoTokenRec : TokenRecord := ⟨0, 0, demoAccessEnc, 2000000, demoRefreshEnc⟩

def kvSession : KV :=
  ⟨fun _ => none, fun k => if k = "sess" then some (demoTokenRec, 99) else none⟩

/-! ### C1 — duplicate callbacks never re-issue a session -/

/-- C1: once the pairing record for `state` is terminal (completed or error),
    a further callback carrying a code and that same state finds it
    non-pending, answers with the "Already connected" page and performs no
    store write at all — both KV namespaces are returned unchanged — so no
    second TokenRecord (hence no second sessionToken) is ever created for
    that pairId. -/
theorem handleCallback_terminal_noop (ctx : Ctx) (kv : KV) (code st : String)
    (p : PairRecord) (ttl : Nat) (rawQuery : String)
    (hcode : code ≠ "") (hhex : isHex36 st = true)
    (hrec : kv.pair st = some (p, ttl)) (hterm : p.status ≠ .pending) :
    handleCallback ctx kv (some code) (some st) none none rawQuery =
      (kv, htmlPage "SmartThings Auth"
        "<h1>Already connected</h1><p>You can close this tab and return to Raycast.</p>") := by
  have hst : st ≠ "" := by
    intro h
    rw [h] at hhex
    simp [isHex36] at hhex
  unfold handleCallback
  simp [truthy, hhex, hst, hcode, hrec, hterm]

/-- C1 witness: the theorem applied at a terminal record fixture. -/
theorem handleCallback_terminal_noop_witness :
    ("abc" ≠ "" ∧ isHex36 demoPairId = true ∧
      kvTerminal.pair demoPairId = some (demoPairRec, 900) ∧
      demoPairRec.status ≠ .pending) ∧
    handleCallback demoCtx kvTerminal (some "abc") (some demoPairId) none none "" =
      (kvTerminal, htmlPage "SmartThings Auth"
        "<h1>Already connected</h1><p>You can close this tab and return to Raycast.</p>") :=
  ⟨⟨by decide, by decide, by simp [kvTerminal], by decide⟩,
   handleCallback_terminal_noop demoCtx kvTerminal "abc" demoPairId demoPairRec 900 ""
     (by decide) (by decide) (by simp [kvTerminal]) (by decide)⟩

/-! ### C3 — the 60-second safety margin -/

/-- C3: with a stored TokenRecord, GetAccessToken takes the fast path exactly
    when the stored expiry lies strictly more than 60 s past `now`: it bumps
    `lastUsedAt`, renews the 60-day TTL, and returns the decrypted stored
    token with the stored expiry.  Otherwise the upstream refresh outcome
    alone determines the response — a refresh is always performed before
    responding. -/
theorem handleAccessToken_margin (ctx : Ctx) (kv : KV) (tok : String)
    (record : TokenRecord) (ttl : Nat)
    (htok : tok ≠ "") (hrec : kv.token tok = some (record, ttl)) :
    (record.accessTokenExpiresAt - ctx.now > 60000 →
      ∀ t, decryptString ctx.A ctx.key record.accessTokenEnc = some t →
      handleAccessToken ctx kv (some tok) =
        (kv.putToken tok { record with lastUsedAt := ctx.now } SESSION_TTL_SECONDS,
         jsonResponse (.tokenOk t record.accessTokenExpiresAt) 200)) ∧
    (¬record.accessTokenExpiresAt - ctx.now > 60000 →
      ∀ rt, decryptString ctx.A ctx.key record.refreshTokenEnc = some rt →
      ((ctx.refresh = none → (handleAccessToken ctx kv (some tok)).2 = internalError) ∧
       (∀ r, ctx.refresh = some r →
         (handleAccessToken ctx kv (some tok)).2 =
           jsonResponse (.tokenOk r.access_token (ctx.now + r.expires_in * 1000)) 200))) := by
  constructor
  · intro hm t ht
    unfold handleAccessToken
    simp [truthy, htok, hrec, hm, ht]
  · intro hm rt hrt
    constructor
    · intro hre
      unfold handleAccessToken
      simp [truthy, htok, hrec, hm, hrt, hre]
    · intro r hre
      unfold handleAccessToken
      simp [truthy, htok, hrec, hm, hrt, hre]

/-- C3 witness: fast path at the session fixture (expiry 2,000,000 ms,
    now 1,000,000 ms, margin 1,000,000 ms > 60 s). -/
theorem handleAccessToken_margin_witness :
    ("sess" ≠ "" ∧ kvSession.token "sess" = some (demoTokenRec, 99) ∧
      demoTokenRec.accessTokenExpiresAt - demoCtx.now > 60000 ∧
      decryptString demoCtx.A demoCtx.key demoTokenRec.accessTokenEnc = some "tokA") ∧
    handleAccessToken demoCtx kvSession (some "sess") =
      (kvSession.putToken "sess" { demoTokenRec with lastUsedAt := demoCtx.now }
        SESSION_TTL_SECONDS,
       jsonResponse (.tokenOk "tokA" demoTokenRec.accessTokenExpiresAt) 200) := by
  have hdec : decryptString demoCtx.A demoCtx.key demoTokenRec.accessTokenEnc = some "tokA" :=
    (encryptString_decryptString_roundtrip demoAEAD [] (List.replicate 12 0) "tokA"
      (by decide) (by decide)).1
  exact ⟨⟨by decide, by simp [kvSession], by decide, hdec⟩,
    (handleAccessToken_margin demoCtx kvSession "sess" demoTokenRec 99 (by decide)
      (by simp [kvSession])).1 (by decide) "tokA" hdec⟩

/-! ### C4 — refresh failure leaves the session intact -/

/-- C4: when the upstream refresh fails (non-2xx response or thrown error),
    GetAccessToken responds with the 500 internal error and returns the store
    completely unchanged — in particular the TokenRecord is not deleted, so a
    later GetAccessToken with the same sessionToken still finds it. -/
theorem handleAccessToken_refresh_failure (ctx : Ctx) (kv : KV) (tok : String)
    (record : TokenRecord) (ttl : Nat)
    (htok : tok ≠ "") (hrec : kv.token tok = some (record, ttl))
    (hmargin : ¬record.accessTokenExpiresAt - ctx.now > 60000)
    (rt : String) (hdec : decryptString ctx.A ctx.key record.refreshTokenEnc = some rt)
    (hfail : ctx.refresh = none) :
    handleAccessToken ctx kv (some tok) = (kv, internalError) ∧
    (handleAccessToken ctx kv (some tok)).1.token tok = some (record, ttl) := by
  have h : handleAccessToken ctx kv (some tok) = (kv, internalError) := by
    unfold handleAccessToken
    simp [truthy, htok, hrec, hmargin, hdec, hfail]
  exact ⟨h, by rw [h]; exact hrec⟩

/-- C4 witness: refresh-failure context over the session fixture
    (expiry 2,000,000 ms, now 1,990,000 ms: inside the margin). -/
theorem handleAccessToken_refresh_failure_witness :
    ("sess" ≠ "" ∧ kvSession.token "sess" = some (demoTokenRec, 99) ∧
      ¬demoTokenRec.accessTokenExpiresAt - (1990000 : Int) > 60000 ∧
      decryptString demoAEAD [] demoTokenRec.refreshTokenEnc = some "tokR") ∧
    handleAccessToken { demoCtx with now := 1990000, refresh := none } kvSession (some "sess")
      = (kvSession, internalError) := by
  have hdec : decryptString demoAEAD [] demoTokenRec.refreshTokenEnc = some "tokR" :=
    (encryptString_decryptString_roundtrip demoAEAD [] (List.replicate 12 1) "tokR"
      (by decide) (by decide)).1
  exact ⟨⟨by decide, by simp [kvSession], by decide, hdec⟩,
    (handleAccessToken_refresh_failure { demoCtx with now := 1990000, refresh := none }
      kvSession "sess" demoTokenRec 99 (by decide) (by simp [kvSession]) (by decide)
      "tokR" hdec rfl).1⟩

/-! ### C5 — crypto failures are 500, 401 is exactly a session failure -/

/-- C5: a decryption failure on the stored ciphertexts surfaces as the 500
    internal error, never as the 401 "Invalid session"; and the 401 response
    arises exactly when the Bearer token is missing or its token record is
    absent from the store. -/
theorem handleAccessToken_error_taxonomy (ctx : Ctx) (kv : KV) (bearer : Option String) :
    (∀ tok record ttl, bearer = some tok → tok ≠ "" → kv.token tok = some (record, ttl) →
      ((record.accessTokenExpiresAt - ctx.now > 60000 →
          decryptString ctx.A ctx.key record.accessTokenEnc = none →
          (handleAccessToken ctx kv bearer).2 = internalError) ∧
       (¬record.accessTokenExpiresAt - ctx.now > 60000 →
          decryptString ctx.A ctx.key record.refreshTokenEnc = none →
          (handleAccessToken ctx kv bearer).2 = internalError))) ∧
    ((handleAccessToken ctx kv bearer).2.status = 401 ↔
      truthy bearer = false ∨ (truthy bearer = true ∧ kv.token (bearer.getD "") = none)) := by
  constructor
  · intro tok record ttl hb htok hrec
    subst hb
    constructor
    · intro hm hdec
      unfold handleAccessToken
      simp [truthy, htok, hrec, hm, hdec]
    · intro hm hdec
      unfold handleAccessToken
      simp [truthy, htok, hrec, hm, hdec]
  · unfold handleAccessToken
    by_cases hb : truthy bearer = true
    · rw [if_neg (by simp [hb])]
      cases hrec : kv.token (bearer.getD "") with
      | none => simp [hrec, hb, unauthorized, jsonResponse]
      | some pr =>
          obtain ⟨record, ttl⟩ := pr
          simp only [hrec]
          by_cases hm : record.accessTokenExpiresAt - ctx.now > 60000
          · rw [if_pos hm]
            cases hdec : decryptString ctx.A ctx.key record.accessTokenEnc with
            | none => simp [hdec, hb, hrec, internalError, jsonResponse]
            | some t => simp [hdec, hb, hrec, jsonResponse]
          · rw [if_neg hm]
            cases hdec : decryptString ctx.A ctx.key record.refreshTokenEnc with
            | none => simp [hdec, hb, hrec, internalError, jsonResponse]
            | some rt =>
                cases hrefresh : ctx.refresh with
                | none => simp [hdec, hrefresh, hb, hrec, internalError, jsonResponse]
                | some r => simp [hdec, hrefresh, hb, hrec, jsonResponse]
    · have hb2 : truthy bearer = false := by
        simp only [Bool.not_eq_true] at hb
        exact hb
      rw [if_pos (by simp [hb2])]
      simp [hb2, unauthorized, jsonResponse]

/-- A session fixture whose stored access-token ciphertext is corrupt
    (no packing separator, so decryption fails). -/
def corruptTokenRec : TokenRecord := ⟨0, 0, "corrupt", 2000000, demoRefreshEnc⟩

def kvCorrupt : KV :=
  ⟨fun _ => none, fun k => if k = "sess" then some (corruptTokenRec, 99) else none⟩

/-- C5 witness: a corrupt stored access-token ciphertext yields the 500
    internal error on the fast path, not a 401. -/
theorem handleAccessToken_error_taxonomy_witness :
    ((some "sess" : Option String) = some "sess" ∧ ("sess" : String) ≠ "" ∧
      kvCorrupt.token "sess" = some (corruptTokenRec, 99) ∧
      corruptTokenRec.accessTokenExpiresAt - demoCtx.now > 60000 ∧
      decryptString demoCtx.A demoCtx.key corruptTokenRec.accessTokenEnc = none) ∧
    (handleAccessToken demoCtx kvCorrupt (some "sess")).2 = internalError :=
  ⟨⟨rfl, by decide, by simp [kvCorrupt], by decide, by decide⟩,
   ((handleAccessToken_error_taxonomy demoCtx kvCorrupt (some "sess")).1 "sess"
      corruptTokenRec 99 rfl (by decide) (by simp [kvCorrupt])).1 (by decide) (by decide)⟩

/-! ### C8 — logout is idempotent and revokes the session -/

/-- C8: Logout deletes `token:<sessionToken>` unconditionally and answers
    `{ok: true}` whether or not the key was present (deleting an absent key is
    the same store update); it fails only with 401 when the Bearer token is
    missing; and GetAccessToken after Logout with the same sessionToken is the
    401 `UnauthorizedError` ("Invalid session"). -/
theorem handleLogout_idempotent_revokes (ctx : Ctx) (kv : KV) (tok : String)
    (htok : tok ≠ "") :
    (handleLogout kv (some tok) = (kv.delToken tok, jsonResponse .okTrue 200)) ∧
    (handleLogout kv none = (kv, unauthorized "Unauthorized")) ∧
    ((kv.delToken tok).token tok = none) ∧
    (handleAccessToken ctx (handleLogout kv (some tok)).1 (some tok) =
      ((handleLogout kv (some tok)).1, unauthorized "Invalid session")) := by
  have h1 : handleLogout kv (some tok) = (kv.delToken tok, jsonResponse .okTrue 200) := by
    unfold handleLogout
    simp [truthy, htok]
  have hdel : (kv.delToken tok).token tok = none := by
    unfold KV.delToken
    simp
  refine ⟨h1, by unfold handleLogout; simp [truthy], hdel, ?_⟩
  rw [h1]
  unfold handleAccessToken
  simp [truthy, htok, hdel]

/-- C8 witness: logout over the session fixture (where the record exists) and
    over the empty store (where it is absent) both succeed, and the follow-up
    access-token call is 401. -/
theorem handleLogout_idempotent_revokes_witness :
    ("sess" ≠ "") ∧
    handleLogout kvSession (some "sess")
      = (kvSession.delToken "sess", jsonResponse .okTrue 200) ∧
    handleLogout emptyKV (some "sess")
      = (emptyKV.delToken "sess", jsonResponse .okTrue 200) ∧
    handleAccessToken demoCtx (handleLogout kvSession (some "sess")).1 (some "sess") =
      ((handleLogout kvSession (some "sess")).1, unauthorized "Invalid session") :=
  ⟨by decide,
   (handleLogout_idempotent_revokes demoCtx kvSession "sess" (by decide)).1,
   (handleLogout_idempotent_revokes demoCtx emptyKV "sess" (by decide)).1,
   (handleLogout_idempotent_revokes demoCtx kvSession "sess" (by decide)).2.2.2⟩

/-! ### C10 — identifier format and early rejection -/

set_option maxRecDepth 4096 in
theorem hexByte_good : ∀ b, b < 256 → (hexByte b).data.length = 2 ∧
    ∀ c ∈ (hexByte b).data, isLowerHexChar c = true := by decide

theorem randomHex_data (bytes : List Nat) : ∀ (acc : String),
    (bytes.foldl (fun acc b => acc ++ hexByte b) acc).data
      = acc.data ++ (bytes.map (fun b => (hexByte b).data)).flatten := by
  induction bytes with
  | nil => intro acc; simp
  | cons b r ih =>
      intro acc
      simp only [List.foldl_cons, ih, String.data_append, List.map_cons, List.flatten_cons,
        List.append_assoc]

theorem randomHex_hex36 (bytes : List Nat) (hlen : bytes.length = 18)
    (hb : ∀ b ∈ bytes, b < 256) : isHex36 (randomHex bytes) = true := by
  have hdata : (randomHex bytes).data = (bytes.map (fun b => (hexByte b).data)).flatten := by
    unfold randomHex
    rw [randomHex_data bytes ""]
    rfl
  have hlen2 : (randomHex bytes).data.length = 2 * bytes.length := by
    rw [hdata]
    clear hdata hlen
    induction bytes with
    | nil => simp
    | cons b r ih =>
        simp only [List.map_cons, List.flatten_cons, List.length_append,
          (hexByte_good b (hb b (by simp))).1, List.length_cons]
        rw [ih (fun x hx => hb x (by simp [hx]))]
        omega
  have hall : ∀ c ∈ (randomHex bytes).data, isLowerHexChar c = true := by
    rw [hdata]
    intro c hc
    rw [List.mem_flatten] at hc
    obtain ⟨l, hl, hcl⟩ := hc
    rw [List.mem_map] at hl
    obtain ⟨b, hbm, rfl⟩ := hl
    exact (hexByte_good b (hb b hbm)).2 c hcl
  unfold isHex36
  have hslen : (randomHex bytes).length = 36 := by
    show (randomHex bytes).data.length = 36
    omega
  simp [hslen, List.all_eq_true]
  exact hall

/-- C10: every pairId StartPairing generates (`randomHex` over 18 random
    bytes) is exactly 36 lowercase hex characters; PollStatus answers 404 for
    a malformed pairId no matter what the store holds (no store read can be
    observed); and HandleCallback with a present but malformed `state` renders
    the "Invalid session state" page and leaves the store unchanged, whatever
    it holds. -/
theorem broker_id_format :
    (∀ bytes : List Nat, bytes.length = 18 → (∀ b ∈ bytes, b < 256) →
      isHex36 (randomHex bytes) = true) ∧
    (∀ (kv : KV) (path : String) (pidCs : List Char),
      (splitSlash path.data).getLast? = some pidCs →
      isHex36 (String.mk pidCs) = false → handlePollStatus kv path = notFound) ∧
    (∀ (ctx : Ctx) (kv : KV) (code oauthError desc : Option String)
        (st : String) (rawQuery : String), st ≠ "" → isHex36 st = false →
      handleCallback ctx kv code (some st) oauthError desc rawQuery =
        (kv, htmlPage "SmartThings Auth - Error"
          "<h1>Authentication failed</h1><p>Invalid session state.</p>")) := by
  refine ⟨randomHex_hex36, ?_, ?_⟩
  · intro kv path pidCs hlast hhex
    unfold handlePollStatus
    rw [hlast]
    simp [hhex]
  · intro ctx kv code oauthError desc st rawQuery hst hhex
    unfold handleCallback
    simp [truthy, hst, hhex]

/-- C10 witness: 18 concrete bytes give a valid pairId; `pollStatus` with a
    malformed id is 404 on a non-empty store; a malformed `state` short-circuits
    the callback on that same store. -/
theorem broker_id_format_witness :
    ((List.replicate 18 7).length = 18 ∧ (∀ b ∈ List.replicate 18 7, b < 256) ∧
      isHex36 (randomHex (List.replicate 18 7)) = true) ∧
    ((splitSlash "/v1/pair/zzz".data).getLast? = some "zzz".data ∧
      isHex36 (String.mk "zzz".data) = false ∧
      handlePollStatus kvTerminal "/v1/pair/zzz" = notFound) ∧
    (("ZZ" : String) ≠ "" ∧ isHex36 "ZZ" = false ∧
      handleCallback demoCtx kvTerminal (some "abc") (some "ZZ") none none "" =
        (kvTerminal, htmlPage "SmartThings Auth - Error"
          "<h1>Authentication failed</h1><p>Invalid session state.</p>")) :=
  ⟨⟨by decide, by decide, broker_id_format.1 (List.replicate 18 7) (by decide) (by decide)⟩,
   ⟨by decide, by decide, broker_id_format.2.1 kvTerminal "/v1/pair/zzz" "zzz".data
      (by decide) (by decide)⟩,
   ⟨by decide, by decide, broker_id_format.2.2 demoCtx kvTerminal (some "abc") none none
      "ZZ" "" (by decide) (by decide)⟩⟩

/-! ### C6 — rate-limiter window behaviour -/

theorem applyCalls_in_window (key : String) (limit windowMs : Nat) (R : Int) :
    ∀ (ts : List Int) (m : RLMap) (k : Nat),
      m key = some ⟨k, R⟩ → k + ts.length ≤ limit → (∀ t ∈ ts, t < R) →
      (applyCalls key limit windowMs m ts).1 = List.replicate ts.length true ∧
      (applyCalls key limit windowMs m ts).2 key = some ⟨k + ts.length, R⟩ := by
  intro ts
  induction ts with
  | nil =>
      intro m k hm _ _
      exact ⟨rfl, by simpa using hm⟩
  | cons t ts ih =>
      intro m k hm hle hin
      have ht : t < R := hin t (by simp)
      have hklim : ¬k ≥ limit := by
        simp only [List.length_cons] at hle
        omega
      have hstep : checkRateLimit key limit windowMs t m =
          (true, fun k2 => if k2 = key then some ⟨k + 1, R⟩ else m k2) := by
        unfold checkRateLimit
        rw [hm]
        dsimp only
        rw [if_neg (by omega : ¬t ≥ R), if_neg hklim]
      have hnext := ih (fun k2 => if k2 = key then some ⟨k + 1, R⟩ else m k2) (k + 1)
        (by simp)
        (by simp only [List.length_cons] at hle; omega)
        (fun x hx => hin x (by simp [hx]))
      constructor
      · show (applyCalls key limit windowMs m (t :: ts)).1 = _
        unfold applyCalls
        rw [hstep]
        simp only [List.length_cons, List.replicate_succ]
        exact congrArg (true :: ·) hnext.1
      · show (applyCalls key limit windowMs m (t :: ts)).2 key = _
        unfold applyCalls
        rw [hstep]
        rw [hnext.2]
        simp only [List.length_cons]
        congr 1
        congr 1
        omega

/-- C6: for a fresh key, the first `limit` calls inside one window are all
    allowed, a further call inside the window is rejected (and the broker
    answers every rejected gate with the 429 "Too many requests" response, as
    the final conjunct states for the global gate), and a call at or past the
    window boundary resets the counter to 1 and is allowed again. -/
theorem checkRateLimit_window (key : String) (limit windowMs : Nat) (m0 : RLMap)
    (t0 : Int) (rest : List Int)
    (hfresh : m0 key = none) (hlen : rest.length + 1 = limit)
    (hin : ∀ t ∈ rest, t < t0 + windowMs) :
    ((applyCalls key limit windowMs m0 (t0 :: rest)).1 = List.replicate limit true) ∧
    (∀ t : Int, t < t0 + windowMs →
      checkRateLimit key limit windowMs t (applyCalls key limit windowMs m0 (t0 :: rest)).2 =
        (false, (applyCalls key limit windowMs m0 (t0 :: rest)).2)) ∧
    (∀ t : Int, t0 + windowMs ≤ t →
      (checkRateLimit key limit windowMs t
          (applyCalls key limit windowMs m0 (t0 :: rest)).2).1 = true ∧
      (checkRateLimit key limit windowMs t
          (applyCalls key limit windowMs m0 (t0 :: rest)).2).2 key =
        some ⟨1, t + windowMs⟩) ∧
    (∀ (ctx : Ctx) (st : WState) (req : Req),
      (checkRateLimit ("global:" ++ jsOr req.cfConnectingIp "unknown")
        RATE_LIMITS_global.limit RATE_LIMITS_global.windowMs ctx.now
        (cleanupRateLimitMap st.rl st.lastCleanup ctx.now).1).1 = false →
      (fetchBroker ctx st req).2 = tooManyRequests) := by
  have hstep0 : checkRateLimit key limit windowMs t0 m0 =
      (true, fun k2 => if k2 = key then some ⟨1, t0 + windowMs⟩ else m0 k2) := by
    unfold checkRateLimit
    rw [hfresh]
  have hrest := applyCalls_in_window key limit windowMs (t0 + windowMs) rest
    (fun k2 => if k2 = key then some ⟨1, t0 + windowMs⟩ else m0 k2) 1
    (by simp) (by omega) hin
  have hfinal : (applyCalls key limit windowMs m0 (t0 :: rest)).2 key =
      some ⟨limit, t0 + windowMs⟩ := by
    show (applyCalls key limit windowMs m0 (t0 :: rest)).2 key = _
    unfold applyCalls
    rw [hstep0]
    rw [hrest.2]
    congr 2
    omega
  refine ⟨?_, ?_, ?_, ?_⟩
  · show (applyCalls key limit windowMs m0 (t0 :: rest)).1 = _
    unfold applyCalls
    rw [hstep0]
    conv_rhs => rw [← hlen, List.replicate_succ]
    exact congrArg (true :: ·) hrest.1
  · intro t htw
    unfold checkRateLimit
    rw [hfinal]
    dsimp only
    rw [if_neg (by omega : ¬t ≥ t0 + windowMs), if_pos (by omega : limit ≥ limit)]
  · intro t htw
    unfold checkRateLimit
    rw [hfinal]
    dsimp only
    rw [if_pos (by omega : t ≥ t0 + windowMs)]
    exact ⟨rfl, by simp⟩
  · intro ctx st req hgate
    unfold fetchBroker
    simp [hgate]

/-- C6 witness: limit 2, window 10 ms, calls at 0 and 1 allowed, a third call
    at 5 rejected, and a call at 10 allowed again with the counter reset. -/
theorem checkRateLimit_window_witness :
    ((fun _ => none : RLMap) "k" = none ∧ ([1] : List Int).length + 1 = 2 ∧
      (∀ t ∈ ([1] : List Int), t < 0 + 10)) ∧
    ((applyCalls "k" 2 10 (fun _ => none) [0, 1]).1 = List.replicate 2 true) ∧
    checkRateLimit "k" 2 10 5 (applyCalls "k" 2 10 (fun _ => none) [0, 1]).2 =
      (false, (applyCalls "k" 2 10 (fun _ => none) [0, 1]).2) ∧
    (checkRateLimit "k" 2 10 10 (applyCalls "k" 2 10 (fun _ => none) [0, 1]).2).1 = true ∧
    (checkRateLimit "k" 2 10 10 (applyCalls "k" 2 10 (fun _ => none) [0, 1]).2).2 "k" =
      some ⟨1, 20⟩ := by
  have h := checkRateLimit_window "k" 2 10 (fun _ => none) 0 [1] rfl (by decide)
    (by intro t ht; simp at ht; omega)
  exact ⟨⟨rfl, by decide, by intro t ht; simp at ht; omega⟩,
    h.1, h.2.1 5 (by omega), (h.2.2.1 10 (by omega)).1, (h.2.2.1 10 (by omega)).2⟩

/-! ### C7 — every response is non-cacheable; there is no OPTIONS branch -/

theorem jsonResponse_no_store (b : RespBody) (s : Nat) :
    ("cache-control", "no-store") ∈ (jsonResponse b s).headers := by
  simp [jsonResponse, JSON_HEADERS]

theorem htmlPage_no_store (t b : String) :
    ("cache-control", "no-store") ∈ (htmlPage t b).headers := by
  simp [htmlPage, HTML_HEADERS]

theorem handleStartPair_no_store (ctx : Ctx) (kv : KV) :
    ("cache-control", "no-store") ∈ (handleStartPair ctx kv).2.headers := by
  unfold handleStartPair
  repeat'
    first
      | split
      | dsimp only
  all_goals
    simp [jsonResponse, JSON_HEADERS, htmlPage, HTML_HEADERS, internalError,
      unauthorized, notFound, tooManyRequests]

theorem handleCallback_no_store (ctx : Ctx) (kv : KV)
    (code state oauthError oauthErrorDescription : Option String) (rawQuery : String) :
    ("cache-control", "no-store") ∈
      (handleCallback ctx kv code state oauthError oauthErrorDescription rawQuery).2.headers := by
  unfold handleCallback
  repeat'
    first
      | split
      | dsimp only
  all_goals
    simp [jsonResponse, JSON_HEADERS, htmlPage, HTML_HEADERS, internalError,
      unauthorized, notFound, tooManyRequests]

theorem handlePollStatus_no_store (kv : KV) (path : String) :
    ("cache-control", "no-store") ∈ (handlePollStatus kv path).headers := by
  unfold handlePollStatus
  repeat'
    first
      | split
      | dsimp only
  all_goals
    simp [jsonResponse, JSON_HEADERS, htmlPage, HTML_HEADERS, internalError,
      unauthorized, notFound, tooManyRequests]

theorem handleAccessToken_no_store (ctx : Ctx) (kv : KV) (bearer : Option String) :
    ("cache-control", "no-store") ∈ (handleAccessToken ctx kv bearer).2.headers := by
  unfold handleAccessToken
  repeat'
    first
      | split
      | dsimp only
  all_goals
    simp [jsonResponse, JSON_HEADERS, htmlPage, HTML_HEADERS, internalError,
      unauthorized, notFound, tooManyRequests]

theorem handleLogout_no_store (kv : KV) (bearer : Option String) :
    ("cache-control", "no-store") ∈ (handleLogout kv bearer).2.headers := by
  unfold handleLogout
  repeat'
    first
      | split
      | dsimp only
  all_goals
    simp [jsonResponse, JSON_HEADERS, htmlPage, HTML_HEADERS, internalError,
      unauthorized, notFound, tooManyRequests]

/-- C7 (amended): every HTTP response of the broker — every route, every
    branch, every error — carries the non-cacheable `cache-control: no-store`
    header. -/
theorem fetchBroker_no_store (ctx : Ctx) (st : WState) (req : Req) :
    ("cache-control", "no-store") ∈ (fetchBroker ctx st req).2.headers := by
  unfold fetchBroker
  repeat'
    first
      | split
      | dsimp only
  all_goals
    first
    | exact handleStartPair_no_store ctx st.kv
    | exact handleCallback_no_store ctx st.kv req.qCode req.qState req.qError
        req.qErrorDescription req.rawQuery
    | exact handlePollStatus_no_store st.kv req.path
    | exact handleAccessToken_no_store ctx st.kv req.bearer
    | exact handleLogout_no_store st.kv req.bearer
    | simp [jsonResponse, JSON_HEADERS, internalError, unauthorized, notFound,
        tooManyRequests]

def demoWState : WState := ⟨emptyKV, fun _ => none, 0⟩

def demoOptionsReq : Req := ⟨"OPTIONS", "/v1/pair", none, none, none, none, "", none, none⟩

/-- C7 counterexample: the broker has no OPTIONS branch.  An OPTIONS request
    falls through to the 404 Not Found JSON response — not an empty success —
    and no response carries any `access-control-*` header. -/
theorem fetchBroker_options_counterexample :
    (fetchBroker demoCtx demoWState demoOptionsReq).2.status = 404 ∧
    "access-control-allow-origin" ∉
      (fetchBroker demoCtx demoWState demoOptionsReq).2.headers.map Prod.fst := by
  decide

/-! ### C9 — scope encoding keeps `:` and `*` literal -/

def isUpHex (c : Char) : Bool := "0123456789ABCDEF".data.contains c

/-- A chunk of `encodeURIComponent` output: either a literal non-`%`
    character or a three-character `%HH` escape with uppercase hex digits. -/
def GoodBlock (b : List Char) : Prop :=
  (∃ c, b = [c] ∧ c ≠ '%') ∨
  (∃ h1 h2, b = ['%', h1, h2] ∧ isUpHex h1 = true ∧ isUpHex h2 = true)

/-- The `encodeURIComponent` output for one character, as a list of chunks. -/
def charBlocks (c : Char) : List (List Char) :=
  if isUriUnreserved c then [[c]] else (utf8Bytes c).map pctByte

/-- `if b = pat then rep else b`, the block-level effect of one `replaceAll`. -/
def blockSwap (pat rep b : List Char) : List Char := if b = pat then rep else b

theorem hexUpper_upHex : ∀ n, n < 16 → isUpHex (hexUpper n) = true ∧ hexUpper n ≠ '%' := by
  decide

theorem hexUpper_inj : ∀ m, m < 16 → ∀ n, n < 16 → hexUpper m = hexUpper n → m = n := by
  decide

theorem utf8Bytes_lt (c : Char) : ∀ b ∈ utf8Bytes c, b < 256 := by
  have ht := char_toNat_lt c
  intro b hb
  unfold utf8Bytes at hb
  dsimp only at hb
  split at hb
  · simp only [List.mem_singleton] at hb
    omega
  · split at hb
    · simp only [List.mem_cons, List.not_mem_nil, or_false] at hb
      rcases hb with hb | hb <;> omega
    · split at hb
      · simp only [List.mem_cons, List.not_mem_nil, or_false] at hb
        rcases hb with hb | hb | hb <;> omega
      · simp only [List.mem_cons, List.not_mem_nil, or_false] at hb
        rcases hb with hb | hb | hb | hb <;> omega

theorem utf8Bytes_mem (c : Char) : ∀ b ∈ utf8Bytes c, b = c.toNat ∨ 128 ≤ b := by
  intro b hb
  unfold utf8Bytes at hb
  dsimp only at hb
  split at hb
  · simp only [List.mem_singleton] at hb
    omega
  · split at hb
    · simp only [List.mem_cons, List.not_mem_nil, or_false] at hb
      rcases hb with hb | hb <;> omega
    · split at hb
      · simp only [List.mem_cons, List.not_mem_nil, or_false] at hb
        rcases hb with hb | hb | hb <;> omega
      · simp only [List.mem_cons, List.not_mem_nil, or_false] at hb
        rcases hb with hb | hb | hb | hb <;> omega

theorem encChar_eq_blocks (c : Char) : encChar c = (charBlocks c).flatten := by
  unfold encChar charBlocks
  split <;> simp

theorem charBlocks_good (c : Char) : ∀ b ∈ charBlocks c, GoodBlock b := by
  unfold charBlocks
  split
  · intro b hb
    simp only [List.mem_singleton] at hb
    subst hb
    left
    refine ⟨c, rfl, ?_⟩
    intro he
    subst he
    simp [isUriUnreserved] at *
  · intro b hb
    rw [List.mem_map] at hb
    obtain ⟨byte, hbyte, rfl⟩ := hb
    have hlt := utf8Bytes_lt c byte hbyte
    right
    exact ⟨hexUpper (byte / 16), hexUpper (byte % 16), rfl,
      (hexUpper_upHex (byte / 16) (by omega)).1, (hexUpper_upHex (byte % 16) (by omega)).1⟩

theorem blockSwap_good (pat rep b : List Char) (hrep : GoodBlock rep) (hb : GoodBlock b) :
    GoodBlock (blockSwap pat rep b) := by
  unfold blockSwap
  split
  · exact hrep
  · exact hb

theorem replaceAllL_nil (pat rep : List Char) : replaceAllL pat rep [] = [] :=
  replaceAllL.eq_1 pat rep

theorem replaceAllL_cons (pat rep : List Char) (c : Char) (rest : List Char) :
    replaceAllL pat rep (c :: rest) =
      if pat.isPrefixOf (c :: rest) && !pat.isEmpty then
        rep ++ replaceAllL pat rep (rest.drop (pat.length - 1))
      else c :: replaceAllL pat rep rest :=
  replaceAllL.eq_2 pat rep c rest

theorem isPrefixOf_cons_ne (p1 p2 c : Char) (t : List Char) (hc : c ≠ '%') :
    (['%', p1, p2].isPrefixOf (c :: t)) = false := by
  rw [Bool.eq_false_iff]
  intro h
  rw [List.isPrefixOf_iff_prefix, List.cons_prefix_cons] at h
  exact hc h.1.symm

theorem replaceAllL_flatten (p1 p2 : Char) (rep : List Char) :
    ∀ (bs : List (List Char)), (∀ b ∈ bs, GoodBlock b) →
      replaceAllL ['%', p1, p2] rep bs.flatten =
        (bs.map (blockSwap ['%', p1, p2] rep)).flatten := by
  intro bs
  induction bs with
  | nil => intro _; simp [replaceAllL_nil]
  | cons b rest ih =>
      intro hb
      have hgb := hb b (by simp)
      have hrest : ∀ x ∈ rest, GoodBlock x := fun x hx => hb x (by simp [hx])
      rcases hgb with ⟨c, rfl, hc⟩ | ⟨h1, h2, rfl, hh1, hh2⟩
      · -- literal character block
        simp only [List.flatten_cons, List.singleton_append, List.map_cons]
        rw [replaceAllL_cons]
        rw [isPrefixOf_cons_ne p1 p2 c _ hc]
        simp only [Bool.false_and, Bool.false_eq_true, if_false]
        rw [ih hrest]
        have hswap : blockSwap ['%', p1, p2] rep [c] = [c] := by
          unfold blockSwap
          rw [if_neg (by simp)]
        rw [hswap]
        rfl
      · -- escape block
        have hne1 : h1 ≠ '%' := by
          intro he
          rw [he] at hh1
          exact absurd hh1 (by decide)
        have hne2 : h2 ≠ '%' := by
          intro he
          rw [he] at hh2
          exact absurd hh2 (by decide)
        by_cases hbp : ('%' :: h1 :: h2 :: ([] : List Char)) = ['%', p1, p2]
        · -- this block is exactly the pattern: replaced
          have hp1e : p1 = h1 := by
            have := congrArg (fun l => l.get? 1) hbp
            simpa using this.symm
          have hp2e : p2 = h2 := by
            have := congrArg (fun l => l.get? 2) hbp
            simpa using this.symm
          subst hp1e
          subst hp2e
          simp only [List.flatten_cons, List.map_cons, List.cons_append, List.nil_append]
          rw [replaceAllL_cons]
          have hpre : (['%', p1, p2].isPrefixOf
              ('%' :: p1 :: p2 :: rest.flatten)) = true := by
            rw [List.isPrefixOf_iff_prefix]
            exact ⟨rest.flatten, rfl⟩
          rw [hpre]
          simp only [Bool.true_and, List.isEmpty_cons, Bool.not_false, if_true]
          rw [show (p1 :: p2 :: rest.flatten).drop (['%', p1, p2].length - 1)
              = rest.flatten by simp]
          rw [ih hrest]
          have hswap : blockSwap ['%', p1, p2] rep ['%', p1, p2] = rep := by
            unfold blockSwap
            rw [if_pos rfl]
          rw [hswap]
        · -- an escape block that is not the pattern: untouched
          simp only [List.flatten_cons, List.map_cons, List.cons_append, List.nil_append]
          rw [replaceAllL_cons]
          have hpre : (['%', p1, p2].isPrefixOf
              ('%' :: h1 :: h2 :: rest.flatten)) = false := by
            rw [Bool.eq_false_iff]
            intro h
            rw [List.isPrefixOf_iff_prefix, List.cons_prefix_cons,
              List.cons_prefix_cons, List.cons_prefix_cons] at h
            exact hbp (by simp [h.1, h.2.1, h.2.2.1])
          rw [hpre]
          simp only [Bool.false_and, Bool.false_eq_true, if_false]
          rw [replaceAllL_cons, isPrefixOf_cons_ne p1 p2 h1 _ hne1]
          simp only [Bool.false_and, Bool.false_eq_true, if_false]
          rw [replaceAllL_cons, isPrefixOf_cons_ne p1 p2 h2 _ hne2]
          simp only [Bool.false_and, Bool.false_eq_true, if_false]
          rw [ih hrest]
          have hswap : blockSwap ['%', p1, p2] rep ['%', h1, h2] = ['%', h1, h2] := by
            unfold blockSwap
            rw [if_neg (fun h => hbp h)]
          rw [hswap]
          rfl

theorem blockSwap_ne (pat rep b : List Char) (h : b ≠ pat) : blockSwap pat rep b = b := by
  unfold blockSwap
  rw [if_neg h]

/-- The combined block-level effect of the four replaceAll calls in
    `encodeScopesForSmartThings`. -/
def scopeSwap (b : List Char) : List Char :=
  blockSwap ['%', '2', 'a'] ['*'] (blockSwap ['%', '2', 'A'] ['*']
    (blockSwap ['%', '3', 'a'] [':'] (blockSwap ['%', '3', 'A'] [':'] b)))

/-- Modelled from the spec, for the refinement comparison: the per-character
    scope encoding C9 describes — `:` and `*` stay literal, every other
    character is encoded exactly as `encodeURIComponent` encodes it. -/
def specScopeChar (c : Char) : List Char :=
  if c = ':' ∨ c = '*' then [c] else encChar c

/-- Modelled from the spec: the per-token scope encoding of C9. -/
def specScopeEncode (t : String) : String := String.mk ((t.data.map specScopeChar).flatten)

theorem pctByte_ne_pat (b : Nat) (p1 p2 : Char)
    (hne : ¬(hexUpper (b / 16) = p1 ∧ hexUpper (b % 16) = p2)) :
    pctByte b ≠ ['%', p1, p2] := by
  intro h
  unfold pctByte at h
  injection h with h1 h
  injection h with h2 h
  injection h with h3 h
  exact hne ⟨h2, h3⟩

theorem scopeSwap_pct (b : Nat) (hb : b < 256) (h58 : b ≠ 58) (h42 : b ≠ 42) :
    scopeSwap (pctByte b) = pctByte b := by
  have hup1 := hexUpper_upHex (b / 16) (by omega)
  have hup2 := hexUpper_upHex (b % 16) (by omega)
  have hA : pctByte b ≠ ['%', '3', 'A'] := by
    apply pctByte_ne_pat
    intro h
    have e1 : b / 16 = 3 := hexUpper_inj (b / 16) (by omega) 3 (by omega) (by rw [h.1]; decide)
    have e2 : b % 16 = 10 := hexUpper_inj (b % 16) (by omega) 10 (by omega) (by rw [h.2]; decide)
    omega
  have ha : pctByte b ≠ ['%', '3', 'a'] := by
    apply pctByte_ne_pat
    intro h
    have := hup2.1
    rw [h.2] at this
    exact absurd this (by decide)
  have hB : pctByte b ≠ ['%', '2', 'A'] := by
    apply pctByte_ne_pat
    intro h
    have e1 : b / 16 = 2 := hexUpper_inj (b / 16) (by omega) 2 (by omega) (by rw [h.1]; decide)
    have e2 : b % 16 = 10 := hexUpper_inj (b % 16) (by omega) 10 (by omega) (by rw [h.2]; decide)
    omega
  have hb2 : pctByte b ≠ ['%', '2', 'a'] := by
    apply pctByte_ne_pat
    intro h
    have := hup2.1
    rw [h.2] at this
    exact absurd this (by decide)
  unfold scopeSwap
  rw [blockSwap_ne _ _ _ hA, blockSwap_ne _ _ _ ha, blockSwap_ne _ _ _ hB,
    blockSwap_ne _ _ _ hb2]

theorem scopeSwap_blocks (c : Char) :
    ((charBlocks c).map scopeSwap).flatten = specScopeChar c := by
  by_cases hu : isUriUnreserved c = true
  · have h1 : scopeSwap [c] = [c] := by
      unfold scopeSwap
      rw [blockSwap_ne _ _ _ (show [c] ≠ ['%', '3', 'A'] by simp)]
      rw [blockSwap_ne _ _ _ (show [c] ≠ ['%', '3', 'a'] by simp)]
      rw [blockSwap_ne _ _ _ (show [c] ≠ ['%', '2', 'A'] by simp)]
      rw [blockSwap_ne _ _ _ (show [c] ≠ ['%', '2', 'a'] by simp)]
    unfold charBlocks
    rw [if_pos hu]
    simp only [List.map_cons, List.map_nil, h1, List.flatten_cons, List.flatten_nil,
      List.append_nil]
    unfold specScopeChar
    split
    · rfl
    · unfold encChar
      rw [if_pos hu]
  · by_cases hcol : c = ':'
    · subst hcol
      decide
    · have hstar : c ≠ '*' := by
        intro he
        subst he
        exact hu (by decide)
      have hswap : ∀ bl ∈ (utf8Bytes c).map pctByte, scopeSwap bl = bl := by
        intro bl hbl
        rw [List.mem_map] at hbl
        obtain ⟨b, hbm, rfl⟩ := hbl
        have hlt := utf8Bytes_lt c b hbm
        rcases utf8Bytes_mem c b hbm with hb | hb
        · have h58 : b ≠ 58 := by
            intro he
            apply hcol
            have : Char.ofNat c.toNat = Char.ofNat 58 := by rw [← hb, he]
            rw [Char.ofNat_toNat] at this
            rw [this]
          have h42 : b ≠ 42 := by
            intro he
            apply hstar
            have : Char.ofNat c.toNat = Char.ofNat 42 := by rw [← hb, he]
            rw [Char.ofNat_toNat] at this
            rw [this]
          exact scopeSwap_pct b hlt h58 h42
        · exact scopeSwap_pct b hlt (by omega) (by omega)
      unfold charBlocks
      rw [if_neg hu]
      rw [List.map_congr_left (fun bl hbl => hswap bl hbl)]
      rw [show List.map (fun bl : List Char => bl) ((utf8Bytes c).map pctByte)
          = (utf8Bytes c).map pctByte from List.map_id _]
      unfold specScopeChar
      rw [if_neg (by rintro (h | h); exacts [hcol h, hstar h])]
      unfold encChar
      rw [if_neg hu]

theorem scopeSwap_string (td : List Char) :
    ((td.map charBlocks).flatten.map scopeSwap).flatten = (td.map specScopeChar).flatten := by
  induction td with
  | nil => rfl
  | cons c r ih =>
      simp only [List.map_cons, List.flatten_cons, List.map_append, List.flatten_append]
      rw [scopeSwap_blocks c, ih]

theorem allBlocks_good (td : List Char) : ∀ b ∈ (td.map charBlocks).flatten, GoodBlock b := by
  intro b hb
  rw [List.mem_flatten] at hb
  obtain ⟨bl, hbl, hbbl⟩ := hb
  rw [List.mem_map] at hbl
  obtain ⟨c, _, rfl⟩ := hbl
  exact charBlocks_good c b hbbl

theorem good_map (g : List Char → List Char)
    (hg : ∀ b, GoodBlock b → GoodBlock (g b)) (bs : List (List Char))
    (hbs : ∀ b ∈ bs, GoodBlock b) : ∀ b ∈ bs.map g, GoodBlock b := by
  intro b hb
  rw [List.mem_map] at hb
  obtain ⟨a, ha, rfl⟩ := hb
  exact hg a (hbs a ha)

theorem encodeURIComponent_blocks (t : String) :
    (encodeURIComponent t).data = ((t.data.map charBlocks).flatten).flatten := by
  show ((t.data.map encChar).flatten) = _
  induction t.data with
  | nil => rfl
  | cons c r ih =>
      simp only [List.map_cons, List.flatten_cons, List.flatten_append]
      rw [encChar_eq_blocks, ih]

theorem smartScope_eq_spec (t : String) : smartScope t = specScopeEncode t := by
  unfold smartScope specScopeEncode
  congr 1
  have hgood0 := allBlocks_good t.data
  have hgc : GoodBlock ([':'] : List Char) := Or.inl ⟨':', rfl, by decide⟩
  have hgs : GoodBlock (['*'] : List Char) := Or.inl ⟨'*', rfl, by decide⟩
  have hgood1 := good_map _ (fun b hb => blockSwap_good ['%', '3', 'A'] [':'] b hgc hb)
    _ hgood0
  have hgood2 := good_map _ (fun b hb => blockSwap_good ['%', '3', 'a'] [':'] b hgc hb)
    _ hgood1
  have hgood3 := good_map _ (fun b hb => blockSwap_good ['%', '2', 'A'] ['*'] b hgs hb)
    _ hgood2
  rw [encodeURIComponent_blocks]
  rw [show ("%3A".data : List Char) = ['%', '3', 'A'] from rfl,
     show ("%3a".data : List Char) = ['%', '3', 'a'] from rfl,
     show ("%2A".data : List Char) = ['%', '2', 'A'] from rfl,
     show ("%2a".data : List Char) = ['%', '2', 'a'] from rfl,
     show (":".data : List Char) = [':'] from rfl,
     show ("*".data : List Char) = ['*'] from rfl]
  rw [replaceAllL_flatten '3' 'A' [':'] _ hgood0]
  rw [replaceAllL_flatten '3' 'a' [':'] _ hgood1]
  rw [replaceAllL_flatten '2' 'A' ['*'] _ hgood2]
  rw [replaceAllL_flatten '2' 'a' ['*'] _ hgood3]
  rw [List.map_map, List.map_map, List.map_map]
  exact scopeSwap_string t.data

/-- C9: for every whitespace-delimited scopes string, the authorization-URL
    scope value equals the spec-described encoding: split on ASCII
    whitespace, keep every `:` and `*` literal, percent-encode each scope
    token exactly as `encodeURIComponent` does otherwise, and join the tokens
    with the literal separator `%20`. -/
theorem encodeScopes_matches_spec (scopes : String) :
    encodeScopesForSmartThings scopes =
      String.intercalate "%20" ((splitOnAsciiWhitespace scopes).map specScopeEncode) := by
  unfold encodeScopesForSmartThings
  congr 1
  exact List.map_congr_left (fun t _ => smartScope_eq_spec t)
